import Mathlib

/-!
Verification of the cart-state extraction and reconciliation pipeline of the
strands-agent shopping repository (src/strands-agent/rohlik_agent.py and
src/strands-agent/utils/csv_generator.py).

The Python code is shallowly embedded: strings are `List Char`, Python numbers
are exact rationals `ℚ`, dynamically-typed Python values are `PyVal`, and every
operation that can raise in Python returns `Option`/`Except`-style results where
`none` models an exception reaching the enclosing try/except handler.
-/

set_option maxHeartbeats 1000000

/-- Shorthand: string literal to character list (all embedded text is `List Char`). -/
def sl (s : String) : List Char := s.toList

/-- Opening brace character (usable inside generated text). -/
def obrace : Char := Char.ofNat 123

/-- Closing brace character. -/
def cbrace : Char := Char.ofNat 125

/-- Single-quote character, for Python repr of strings. -/
def squote : Char := Char.ofNat 39

/-- Python whitespace, as stripped by str.strip(). -/
def pyIsSpace (c : Char) : Bool :=
  c = ' ' || c = '\t' || c = '\n' || c = '\r' || c = Char.ofNat 11 || c = Char.ofNat 12

/-- ASCII digit test (regex \d). -/
def isDigitCh (c : Char) : Bool := '0' ≤ c && c ≤ '9'

/-- Character class [\d.] used by the price-capturing regexes. -/
def isDigitDot (c : Char) : Bool := isDigitCh c || c = '.'

/-- Python str.strip(): drop whitespace from both ends. -/
def pyStrip (cs : List Char) : List Char :=
  ((cs.dropWhile pyIsSpace).reverse.dropWhile pyIsSpace).reverse

/-- First list is a prefix of the second. -/
def startsWithL : List Char → List Char → Bool
  | [], _ => true
  | _ :: _, [] => false
  | a :: as, b :: bs => a == b && startsWithL as bs

/-- Python substring containment (needle in hay). -/
def hasSub (needle : List Char) : List Char → Bool
  | [] => needle.isEmpty
  | c :: t => startsWithL needle (c :: t) || hasSub needle t

/-- Split at the first occurrence of needle: (text before, text after the needle). -/
def splitFirst (needle : List Char) : List Char → Option (List Char × List Char)
  | [] => if needle.isEmpty then some ([], []) else none
  | c :: t =>
    if startsWithL needle (c :: t) then some ([], (c :: t).drop needle.length)
    else match splitFirst needle t with
      | some (pre, post) => some (c :: pre, post)
      | none => none

/-- Text up to (excluding) the first occurrence of needle; whole text when absent. -/
def takeUntilSub (needle hay : List Char) : List Char :=
  match splitFirst needle hay with
  | some (pre, _) => pre
  | none => hay

/-- Fuel-driven worker for splitOnSub; fuel is always ample at the call site. -/
def splitOnSubF : Nat → List Char → List Char → List (List Char)
  | 0, _, hay => [hay]
  | n + 1, sep, hay =>
    if sep.isEmpty then [hay]
    else match splitFirst sep hay with
      | some (pre, post) => pre :: splitOnSubF n sep post
      | none => [hay]

/-- Python str.split(sep) for a non-empty separator. -/
def splitOnSub (sep hay : List Char) : List (List Char) :=
  splitOnSubF (hay.length + 1) sep hay

/-- Fuel-driven worker for replaceSub; fuel is always ample at the call site. -/
def replaceSubF : Nat → List Char → List Char → List Char → List Char
  | 0, _, _, hay => hay
  | n + 1, needle, repl, hay =>
    match hay with
    | [] => []
    | c :: t =>
      if needle.isEmpty then c :: t
      else if startsWithL needle (c :: t) then
        repl ++ replaceSubF n needle repl ((c :: t).drop needle.length)
      else c :: replaceSubF n needle repl t

/-- Python str.replace(needle, repl): left-to-right, non-overlapping. -/
def replaceSub (needle repl hay : List Char) : List Char :=
  replaceSubF (hay.length + 1) needle repl hay

/-- Numeric value of a digit string (used for int() on \d+ captures). -/
def digitsVal (cs : List Char) : Nat :=
  cs.foldl (fun a c => a * 10 + (c.toNat - 48)) 0

/-- Python float(string): optional surrounding whitespace and sign, digits with an
optional decimal point, optional exponent. none models ValueError. The inf/nan
literals and digit underscores are not modelled (no input here uses them). -/
def parseFloatChars (cs0 : List Char) : Option ℚ :=
  let cs1 := pyStrip cs0
  let sgn : ℚ := match cs1 with
    | '-' :: _ => -1
    | _ => 1
  let cs2 : List Char := match cs1 with
    | '-' :: t => t
    | '+' :: t => t
    | _ => cs1
  let ip := cs2.takeWhile isDigitCh
  let rest1 := cs2.dropWhile isDigitCh
  let fp : List Char := match rest1 with
    | '.' :: t => t.takeWhile isDigitCh
    | _ => []
  let rest2 : List Char := match rest1 with
    | '.' :: t => t.dropWhile isDigitCh
    | _ => rest1
  if ip.isEmpty && fp.isEmpty then none
  else
    let mant : ℚ := (digitsVal ip : ℚ) + (digitsVal fp : ℚ) / ((10 : ℚ) ^ fp.length)
    match rest2 with
    | [] => some (sgn * mant)
    | e :: t =>
      if e = 'e' || e = 'E' then
        let esgn : Int := match t with
          | '-' :: _ => -1
          | _ => 1
        let t2 : List Char := match t with
          | '-' :: u => u
          | '+' :: u => u
          | _ => t
        let ed := t2.takeWhile isDigitCh
        let rest3 := t2.dropWhile isDigitCh
        if ed.isEmpty || !rest3.isEmpty then none
        else some (sgn * mant * ((10 : ℚ) ^ (esgn * (digitsVal ed : Int))))
      else none

/-- Model of Python values flowing through the pipeline (JSON values, tool-call
arguments and results). Numbers are exact rationals; the int/float distinction
is dropped — both satisfy isinstance(x, (int, float)). -/
inductive PyVal where
  | vstr (s : List Char)
  | vnum (q : ℚ)
  | vbool (b : Bool)
  | vnone
  | vlist (xs : List PyVal)
  | vdict (kvs : List (List Char × PyVal))

/-- Python `key in v` for a string key: dict keys, substring of a string,
membership in a list; none models TypeError on None/numbers/bool. -/
def pyContainsStr (key : List Char) : PyVal → Option Bool
  | .vdict kvs => some (kvs.any (fun kv => kv.1 == key))
  | .vstr s => some (hasSub key s)
  | .vlist xs => some (xs.any (fun v => match v with | .vstr t => t == key | _ => false))
  | _ => none

/-- First binding for a key in an association list (our dicts are duplicate-free). -/
def dictFind : List (List Char × PyVal) → List Char → Option PyVal
  | [], _ => none
  | (k, v) :: t, key => if k == key then some v else dictFind t key

/-- Python dict.get(key, default); none models AttributeError on a non-dict. -/
def pyGetD (v : PyVal) (key : List Char) (dflt : PyVal) : Option PyVal :=
  match v with
  | .vdict kvs => some ((dictFind kvs key).getD dflt)
  | _ => none

/-- Python v[key] for a string key; none models KeyError or TypeError. -/
def pyIndexStr (v : PyVal) (key : List Char) : Option PyVal :=
  match v with
  | .vdict kvs => dictFind kvs key
  | _ => none

/-- Insert or replace a key in an association list (Python dict assignment). -/
def dictSet : List (List Char × PyVal) → List Char → PyVal → List (List Char × PyVal)
  | [], key, val => [(key, val)]
  | (k, v) :: t, key, val =>
    if k == key then (k, val) :: t else (k, v) :: dictSet t key val

/-- Python truthiness. -/
def pyTruthy : PyVal → Bool
  | .vstr s => !s.isEmpty
  | .vnum q => decide (q ≠ 0)
  | .vbool b => b
  | .vnone => false
  | .vlist xs => !xs.isEmpty
  | .vdict kvs => !kvs.isEmpty

/-- Python len(); none models TypeError on unsized values. -/
def pyLen : PyVal → Option ℚ
  | .vstr s => some s.length
  | .vlist xs => some xs.length
  | .vdict kvs => some kvs.length
  | _ => none

/-- isinstance(x, (int, float)); Python bool is a subtype of int. -/
def pvIsIntFloat : PyVal → Bool
  | .vnum _ => true
  | .vbool _ => true
  | _ => false

/-- Numeric value of a Python number (bool coerces to 0/1). -/
def pvToQ : PyVal → Option ℚ
  | .vnum q => some q
  | .vbool b => some (if b then 1 else 0)
  | _ => none

/-- Python a + b for the cases reachable here: the left operand is always a
number, so anything non-numeric on the right raises TypeError (none). -/
def pyAdd : PyVal → PyVal → Option PyVal
  | a, b =>
    match pvToQ a, pvToQ b with
    | some x, some y => some (.vnum (x + y))
    | _, _ => none

/-- Python iteration (for x in v): lists yield elements, strings yield
one-character strings, dicts yield their keys; none models TypeError. -/
def pyIter : PyVal → Option (List PyVal)
  | .vlist xs => some xs
  | .vstr s => some (s.map (fun c => .vstr [c]))
  | .vdict kvs => some (kvs.map (fun kv => PyVal.vstr kv.1))
  | _ => none

mutual

/-- Python repr(), approximated: exact for strings/None/bool; the decimal
rendering of numbers is approximated (no claim depends on that text). -/
def pvRepr : PyVal → List Char
  | .vstr s => squote :: s ++ [squote]
  | .vnum q =>
    (toString q.num).toList ++ (if q.den = 1 then [] else '/' :: (toString q.den).toList)
  | .vbool b => if b then sl "True" else sl "False"
  | .vnone => sl "None"
  | .vlist xs => '[' :: pvReprList xs ++ [']']
  | .vdict kvs => obrace :: pvReprKvs kvs ++ [cbrace]

/-- Comma-separated reprs of list elements. -/
def pvReprList : List PyVal → List Char
  | [] => []
  | [x] => pvRepr x
  | x :: y :: t => pvRepr x ++ sl ", " ++ pvReprList (y :: t)

/-- Comma-separated reprs of dict entries. -/
def pvReprKvs : List (List Char × PyVal) → List Char
  | [] => []
  | [(k, v)] => (squote :: k ++ [squote]) ++ sl ": " ++ pvRepr v
  | (k, v) :: e :: t =>
    (squote :: k ++ [squote]) ++ sl ": " ++ pvRepr v ++ sl ", " ++ pvReprKvs (e :: t)

end

/-- Python str() as used in f-strings and str(x): a string renders as itself,
containers through repr. -/
def pvToStr : PyVal → List Char
  | .vstr s => s
  | v => pvRepr v

/-- Skip JSON whitespace. -/
def jsSkipWs (cs : List Char) : List Char :=
  cs.dropWhile (fun c => c = ' ' || c = '\t' || c = '\n' || c = '\r')

/-- Hex digit value, for \uXXXX escapes. -/
def hexVal (c : Char) : Option Nat :=
  if isDigitCh c then some (c.toNat - 48)
  else if 'a' ≤ c && c ≤ 'f' then some (c.toNat - 87)
  else if 'A' ≤ c && c ≤ 'F' then some (c.toNat - 55)
  else none

/-- Parse the body of a JSON string literal after the opening quote, handling
the standard escapes; returns the decoded characters and the remaining input. -/
def jsString : Nat → List Char → Option (List Char × List Char)
  | 0, _ => none
  | _ + 1, [] => none
  | n + 1, c :: t =>
    if c = '"' then some ([], t)
    else if c = '\\' then
      match t with
      | [] => none
      | e :: t2 =>
        let dec : Option (Char × List Char) :=
          if e = 'n' then some ('\n', t2)
          else if e = 't' then some ('\t', t2)
          else if e = 'r' then some ('\r', t2)
          else if e = 'b' then some (Char.ofNat 8, t2)
          else if e = 'f' then some (Char.ofNat 12, t2)
          else if e = 'u' then
            match t2 with
            | a :: b :: c2 :: d :: t3 =>
              match hexVal a, hexVal b, hexVal c2, hexVal d with
              | some x, some y, some z, some w =>
                some (Char.ofNat (((x * 16 + y) * 16 + z) * 16 + w), t3)
              | _, _, _, _ => none
            | _ => none
          else if e = '"' || e = '\\' || e = '/' then some (e, t2)
          else none
        match dec with
        | some (ch, t4) =>
          match jsString n t4 with
          | some (s, rest) => some (ch :: s, rest)
          | none => none
        | none => none
    else
      match jsString n t with
      | some (s, rest) => some (c :: s, rest)
      | none => none

/-- Parse a JSON number (strict grammar: -? int frac? exp?, no leading zeros),
returning its exact rational value. -/
def jsNumber (cs : List Char) : Option (ℚ × List Char) :=
  let (neg, cs1) : Bool × List Char :=
    match cs with
    | '-' :: t => (true, t)
    | _ => (false, cs)
  let ip := cs1.takeWhile isDigitCh
  let r1 := cs1.dropWhile isDigitCh
  if ip.isEmpty then none
  else if ip.length > 1 && ip.headD ' ' = '0' then none
  else
    let (fp, r2) : List Char × List Char :=
      match r1 with
      | '.' :: t => (t.takeWhile isDigitCh, t.dropWhile isDigitCh)
      | _ => ([], r1)
    match r1 with
    | '.' :: _ =>
      if fp.isEmpty then none
      else jsNumberExp neg ip fp r2
    | _ => jsNumberExp neg ip fp r2
where
  /-- Parse the optional exponent and assemble the value. -/
  jsNumberExp (neg : Bool) (ip fp : List Char) (r2 : List Char) : Option (ℚ × List Char) :=
    let base : ℚ := (digitsVal ip : ℚ) + (digitsVal fp : ℚ) / ((10 : ℚ) ^ fp.length)
    let v : ℚ := if neg then -base else base
    match r2 with
    | e :: t =>
      if e = 'e' || e = 'E' then
        let (esgn, t2) : Int × List Char :=
          match t with
          | '-' :: u => (-1, u)
          | '+' :: u => (1, u)
          | _ => (1, t)
        let ed := t2.takeWhile isDigitCh
        let r3 := t2.dropWhile isDigitCh
        if ed.isEmpty then none
        else some (v * ((10 : ℚ) ^ (esgn * (digitsVal ed : Int))), r3)
      else some (v, r2)
    | [] => some (v, [])

mutual

/-- Fuel-driven JSON value parser (model of Python json.loads; fuel is always
ample at the call site). -/
def jsValue : Nat → List Char → Option (PyVal × List Char)
  | 0, _ => none
  | n + 1, cs =>
    match jsSkipWs cs with
    | [] => none
    | c :: t =>
      if c = '"' then
        match jsString (t.length + 1) t with
        | some (s, rest) => some (.vstr s, rest)
        | none => none
      else if c = '[' then
        match jsSkipWs t with
        | ']' :: t2 => some (.vlist [], t2)
        | _ => jsArrayItems n t []
      else if c = obrace then
        match jsSkipWs t with
        | c2 :: t2 =>
          if c2 = cbrace then some (.vdict [], t2)
          else jsObjItems n (c2 :: t2) []
        | [] => none
      else if c = 't' then
        if startsWithL (sl "rue") t then some (.vbool true, t.drop 3) else none
      else if c = 'f' then
        if startsWithL (sl "alse") t then some (.vbool false, t.drop 4) else none
      else if c = 'n' then
        if startsWithL (sl "ull") t then some (.vnone, t.drop 3) else none
      else
        match jsNumber (c :: t) with
        | some (q, rest) => some (.vnum q, rest)
        | none => none

/-- Parse the elements of a non-empty JSON array (after the opening bracket). -/
def jsArrayItems : Nat → List Char → List PyVal → Option (PyVal × List Char)
  | 0, _, _ => none
  | n + 1, cs, acc =>
    match jsValue n cs with
    | some (v, rest) =>
      match jsSkipWs rest with
      | ',' :: t => jsArrayItems n t (acc ++ [v])
      | ']' :: t => some (.vlist (acc ++ [v]), t)
      | _ => none
    | none => none

/-- Parse the entries of a non-empty JSON object (after the opening brace);
duplicate keys overwrite, as in Python dicts. -/
def jsObjItems : Nat → List Char → List (List Char × PyVal) →
    Option (PyVal × List Char)
  | 0, _, _ => none
  | n + 1, cs, acc =>
    match jsSkipWs cs with
    | '"' :: t =>
      match jsString (t.length + 1) t with
      | some (k, rest) =>
        match jsSkipWs rest with
        | ':' :: t2 =>
          match jsValue n t2 with
          | some (v, rest2) =>
            let acc2 := dictSet acc k v
            match jsSkipWs rest2 with
            | ',' :: t3 => jsObjItems n t3 acc2
            | c3 :: t3 =>
              if c3 = cbrace then some (.vdict acc2, t3) else none
            | [] => none
          | none => none
        | _ => none
      | none => none
    | _ => none

end

/-- Python json.loads: a single JSON value with only whitespace around it;
none models json.JSONDecodeError. -/
def jsonLoads (cs : List Char) : Option PyVal :=
  match jsValue (cs.length + 1) cs with
  | some (v, rest) => if (jsSkipWs rest).isEmpty then some v else none
  | none => none

/-- One item of a regular-expression pattern, covering exactly the constructs
the cart regexes use: literal text, a captured greedy plus/star over a
character class (regex (cls+)/(cls*)), and a captured lazy star (regex (cls*?)).
The dot classes exclude the newline, as in Python without re.DOTALL. -/
inductive RItem where
  | lit (s : List Char)
  | plusCls (f : Char → Bool)
  | starCls (f : Char → Bool)
  | lazyStar (f : Char → Bool)

/-- Greedy backtracking over a class run: try capture lengths k, k-1, ..., halting
at 1 for plus (allowZero = false) or 0 for star (allowZero = true). -/
def tryDesc (cont : List Char → Option (List (List Char))) (cs : List Char)
    (allowZero : Bool) : Nat → Option (List (List Char))
  | 0 =>
    if allowZero then
      match cont cs with
      | some caps => some ([] :: caps)
      | none => none
    else none
  | k + 1 =>
    match cont (cs.drop (k + 1)) with
    | some caps => some (cs.take (k + 1) :: caps)
    | none => tryDesc cont cs allowZero k

/-- Lazy matching over a class run: try capture lengths k, k+1, ... up to the
length of the run (remaining counts down). -/
def tryAsc (cont : List Char → Option (List (List Char))) (cs : List Char)
    (k : Nat) : Nat → Option (List (List Char))
  | 0 =>
    match cont (cs.drop k) with
    | some caps => some (cs.take k :: caps)
    | none => none
  | r + 1 =>
    match cont (cs.drop k) with
    | some caps => some (cs.take k :: caps)
    | none => tryAsc cont cs (k + 1) r

/-- Match a pattern at the start of the input (trailing input allowed, as in
re.search), returning the list of captured groups in order. -/
def matchItems : List RItem → List Char → Option (List (List Char))
  | [], _ => some []
  | .lit s :: rest, cs =>
    if startsWithL s cs then matchItems rest (cs.drop s.length) else none
  | .plusCls f :: rest, cs =>
    tryDesc (matchItems rest) cs false (cs.takeWhile f).length
  | .starCls f :: rest, cs =>
    tryDesc (matchItems rest) cs true (cs.takeWhile f).length
  | .lazyStar f :: rest, cs =>
    tryAsc (matchItems rest) cs 0 (cs.takeWhile f).length

/-- Python re.search: try the pattern at each position, leftmost match wins. -/
def reSearch (its : List RItem) : List Char → Option (List (List Char))
  | [] => matchItems its []
  | c :: t =>
    match matchItems its (c :: t) with
    | some caps => some caps
    | none => reSearch its t

/-- Regex dot without DOTALL: any character except newline. -/
def isDotCh (c : Char) : Bool := c ≠ '\n'

/-- Class [^(] (any character but an opening parenthesis). -/
def isNotParen (c : Char) : Bool := c ≠ '('

/-- Class [^:] (any character but a colon). -/
def isNotColon (c : Char) : Bool := c ≠ ':'

/-- Class [^|] (any character but a pipe). -/
def isNotPipe (c : Char) : Bool := c ≠ '|'

/-- Regex: Total price: ([\d.]+) € -/
def reTotalPrice : List RItem :=
  [.lit (sl "Total price: "), .plusCls isDigitDot, .lit (sl " €")]

/-- Regex: Total items: (\d+) -/
def reTotalItems : List RItem :=
  [.lit (sl "Total items: "), .plusCls isDigitCh]

/-- Regex: - ([^(]+) \(1x\) \| Price: ([\d.]+) € -/
def reItemLine1 : List RItem :=
  [.lit (sl "- "), .plusCls isNotParen, .lit (sl " (1x) | Price: "),
   .plusCls isDigitDot, .lit (sl " €")]

/-- Regex: (\d+) items total -/
def reItemsTotalCount : List RItem :=
  [.plusCls isDigitCh, .lit (sl " items total")]

/-- Regex: Items: (.*) -/
def reItemsRest : List RItem :=
  [.lit (sl "Items: "), .starCls isDotCh]

/-- Regex: 1x ([^(]+) \(([\d.]+) €\) -/
def reInlineItem : List RItem :=
  [.lit (sl "1x "), .plusCls isNotParen, .lit (sl " ("), .plusCls isDigitDot,
   .lit (sl " €)")]

/-- Regex: Total: ([\d.]+) € -/
def reTotal : List RItem :=
  [.lit (sl "Total: "), .plusCls isDigitDot, .lit (sl " €")]

/-- Regex: items total \((.*?)\) -/
def reItemsParen : List RItem :=
  [.lit (sl "items total ("), .lazyStar isDotCh, .lit (sl ")")]

/-- Regex: ([^:]+): ([\d.]+) € -/
def reColonItem : List RItem :=
  [.plusCls isNotColon, .lit (sl ": "), .plusCls isDigitDot, .lit (sl " €")]

/-- Regex: (\d+) item\(s\) in cart: (.+) -/
def reInCart : List RItem :=
  [.plusCls isDigitCh, .lit (sl " item(s) in cart: "), .plusCls isDotCh]

/-- Regex: ([^(]+) \(1x, ([\d.]+) €\) -/
def reCartSingle : List RItem :=
  [.plusCls isNotParen, .lit (sl " (1x, "), .plusCls isDigitDot, .lit (sl " €)")]

/-- Regex: - ([^(]+) \(([\d.]+) €\) -/
def reDashItem : List RItem :=
  [.lit (sl "- "), .plusCls isNotParen, .lit (sl " ("), .plusCls isDigitDot,
   .lit (sl " €)")]

/-- Regex: Product: ([^|]+) \| Quantity: (\d+) \| Price: ([\d.]+) € -/
def reProductLine : List RItem :=
  [.lit (sl "Product: "), .plusCls isNotPipe, .lit (sl " | Quantity: "),
   .plusCls isDigitCh, .lit (sl " | Price: "), .plusCls isDigitDot, .lit (sl " €")]

/-- One reconstructed cart line item. The name/quantity/currency slots carry raw
Python values (the source stores whatever the JSON contained); the price has
always passed through float() and so is numeric. product_id = none models the
key being absent from the Python dict (as in the transcript text formats). -/
structure CartItem where
  name : PyVal
  quantity : PyVal
  price : ℚ
  currency : PyVal
  product_id : Option PyVal

/-- Build a cart line item dict as the source does. -/
def mkItem (nm qv : PyVal) (p : ℚ) (cur : PyVal) (pid : Option PyVal) : CartItem :=
  { name := nm, quantity := qv, price := p, currency := cur, product_id := pid }

/-- The canonical cart snapshot dict built by both reconciliation tiers. -/
structure CartData where
  items : List CartItem
  total_items : PyVal
  total_price : ℚ
  currency : PyVal

/-- The initial cart dict of _extract_cart_from_agent_response. -/
def initCartData : CartData :=
  { items := [], total_items := .vnum 0, total_price := 0, currency := .vstr (sl "EUR") }

/-- Item loop of Format 0 (JSON array) of _extract_cart_from_agent_response. -/
def format0Items : List PyVal → CartData → Option CartData
  | [], cd => some cd
  | item :: rest, cd => do
    let priceRaw ← pyGetD item (sl "price") (.vstr (sl "0 €"))
    let priceStr ← match priceRaw with
      | .vstr s => some (replaceSub (sl "€") [] (replaceSub (sl " €") [] s))
      | _ => none
    let price ← parseFloatChars priceStr
    let name ← pyGetD item (sl "name") (.vstr [])
    let qty ← pyGetD item (sl "quantity") (.vnum 1)
    let pid ← pyGetD item (sl "product_id") .vnone
    let ti ← pyAdd cd.total_items qty
    format0Items rest
      { items := cd.items ++ [mkItem name qty price (.vstr (sl "EUR")) (some pid)],
        total_items := ti,
        total_price := cd.total_price + price,
        currency := cd.currency }

/-- Format 0 of _extract_cart_from_agent_response: JSON array. A JSON decode
error falls through with the cart unchanged; any other exception is none. -/
def format0 (cartText : List Char) (cd : CartData) : Option CartData :=
  if startsWithL (sl "[") (pyStrip cartText) &&
      startsWithL (sl "]") (pyStrip cartText).reverse then
    match jsonLoads cartText with
    | none => some cd
    | some cartJson =>
      match pyIter cartJson with
      | none => none
      | some elems => format0Items elems cd
  else some cd

/-- Line loop of Format 1: '- <name> (1x) | Price: <decimal> €'. -/
def format1Lines : List (List Char) → CartData → Option CartData
  | [], cd => some cd
  | line :: rest, cd =>
    let l := pyStrip line
    if startsWithL (sl "- ") l && hasSub (sl "(1x)") l && hasSub (sl "| Price:") l then
      match reSearch reItemLine1 l with
      | some (gname :: gprice :: _) => do
        let price ← parseFloatChars gprice
        format1Lines rest { cd with items := cd.items ++
          [mkItem (.vstr (pyStrip gname)) (.vnum 1) price (.vstr (sl "EUR")) none] }
      | _ => format1Lines rest cd
    else format1Lines rest cd

/-- Format 1: 'Total items: X | Total price: Y € | Items:' block. -/
def format1 (cartText : List Char) (cd0 : CartData) : Option CartData := do
  let cd1 ← match reSearch reTotalPrice cartText with
    | some (g :: _) => do
      let q ← parseFloatChars g
      pure { cd0 with total_price := q }
    | _ => pure cd0
  let cd2 := match reSearch reTotalItems cartText with
    | some (g :: _) => { cd1 with total_items := PyVal.vnum (digitsVal g) }
    | _ => cd1
  format1Lines (splitOnSub (sl "\n") cartText) cd2

/-- Inline item loop of Format 2: '1x <name> (<decimal> €)' parts. -/
def format2Parts : List (List Char) → CartData → Option CartData
  | [], cd => some cd
  | part :: rest, cd =>
    match reSearch reInlineItem (pyStrip part) with
    | some (gname :: gprice :: _) => do
      let price ← parseFloatChars gprice
      format2Parts rest { cd with items := cd.items ++
        [mkItem (.vstr (pyStrip gname)) (.vnum 1) price (.vstr (sl "EUR")) none] }
    | _ => format2Parts rest cd

/-- Format 2: '<int> items total | Total price: <decimal> € | Items: ...'. -/
def format2 (cartText : List Char) (cd0 : CartData) : Option CartData := do
  let cd1 ← match reSearch reTotalPrice cartText with
    | some (g :: _) => do
      let q ← parseFloatChars g
      pure { cd0 with total_price := q }
    | _ => pure cd0
  let cd2 := match reSearch reItemsTotalCount cartText with
    | some (g :: _) => { cd1 with total_items := PyVal.vnum (digitsVal g) }
    | _ => cd1
  match reSearch reItemsRest cartText with
  | some (g :: _) => format2Parts (splitOnSub (sl ", ") g) cd2
  | _ => pure cd2

/-- Item loop of Format 3: '<name>: <decimal> €' parts, counting items as it goes. -/
def format3Parts : List (List Char) → CartData → Option CartData
  | [], cd => some cd
  | part :: rest, cd =>
    match reSearch reColonItem (pyStrip part) with
    | some (gname :: gprice :: _) => do
      let price ← parseFloatChars gprice
      let ti ← pyAdd cd.total_items (.vnum 1)
      format3Parts rest { cd with
        items := cd.items ++
          [mkItem (.vstr (pyStrip gname)) (.vnum 1) price (.vstr (sl "EUR")) none],
        total_items := ti }
    | _ => format3Parts rest cd

/-- Format 3: '<int> items total (<name>: <decimal> €, ...) | Total: <decimal> €'. -/
def format3 (cartText : List Char) (cd0 : CartData) : Option CartData := do
  let cd1 ← match reSearch reTotal cartText with
    | some (g :: _) => do
      let q ← parseFloatChars g
      pure { cd0 with total_price := q }
    | _ => pure cd0
  match reSearch reItemsParen cartText with
  | some (g :: _) => format3Parts (splitOnSub (sl ", ") g) cd1
  | _ => pure cd1

/-- Format 4: '<int> item(s) in cart: <name> (1x, <decimal> €)' — single item
only; the multi-item variant adds nothing (only logs). -/
def format4 (cartText : List Char) (cd0 : CartData) : Option CartData :=
  match reSearch reInCart cartText with
  | some (gcount :: gitems :: _) =>
    let cd1 := { cd0 with total_items := PyVal.vnum (digitsVal gcount) }
    match reSearch reCartSingle (pyStrip gitems) with
    | some (gname :: gprice :: _) => do
      let price ← parseFloatChars gprice
      pure { cd1 with
        items := cd1.items ++
          [mkItem (.vstr (pyStrip gname)) (.vnum 1) price (.vstr (sl "EUR")) none],
        total_price := cd1.total_price + price }
    | _ => pure cd1
  | _ => pure cd0

/-- Line loop of Format 5 (generic multi-line fallback). -/
def format5Lines : List (List Char) → CartData → Option CartData
  | [], cd => some cd
  | line :: rest, cd =>
    let l := pyStrip line
    if startsWithL (sl "- ") l && hasSub (sl "(") l && hasSub (sl "€") l then
      match reSearch reDashItem l with
      | some (gname :: gprice :: _) => do
        let price ← parseFloatChars gprice
        let ti ← pyAdd cd.total_items (.vnum 1)
        format5Lines rest { cd with
          items := cd.items ++
            [mkItem (.vstr (pyStrip gname)) (.vnum 1) price (.vstr (sl "EUR")) none],
          total_items := ti,
          total_price := cd.total_price + price }
      | _ => format5Lines rest cd
    else if hasSub (sl "Product:") l && hasSub (sl "Quantity:") l &&
        hasSub (sl "Price:") l then
      match reSearch reProductLine l with
      | some (gname :: gqty :: gprice :: _) => do
        let price ← parseFloatChars gprice
        let ti ← pyAdd cd.total_items (.vnum (digitsVal gqty))
        format5Lines rest { cd with
          items := cd.items ++
            [mkItem (.vstr (pyStrip gname)) (.vnum (digitsVal gqty)) price
              (.vstr (sl "EUR")) none],
          total_items := ti,
          total_price := cd.total_price + price }
      | _ => format5Lines rest cd
    else if startsWithL (sl "Total:") l && hasSub (sl "€") l then
      match reSearch reTotal l with
      | some (g :: _) => do
        let q ← parseFloatChars g
        format5Lines rest { cd with total_price := q }
      | _ => format5Lines rest cd
    else format5Lines rest cd

/-- Format 5 over the split lines of the cart text. -/
def format5 (cartText : List Char) (cd : CartData) : Option CartData :=
  format5Lines (splitOnSub (sl "\n") cartText) cd

/-- Trigger condition of Format 1. -/
def guard1 (t : List Char) : Bool :=
  hasSub (sl "Total items:") t && hasSub (sl "Total price:") t && hasSub (sl "Items:") t

/-- Trigger condition of Format 2. -/
def guard2 (t : List Char) : Bool :=
  hasSub (sl "items total") t && hasSub (sl "Total price:") t && hasSub (sl "Items:") t

/-- Trigger condition of Format 3. -/
def guard3 (t : List Char) : Bool :=
  hasSub (sl "items total") t && hasSub (sl "Total:") t

/-- Trigger condition of Format 4. -/
def guard4 (t : List Char) : Bool :=
  hasSub (sl "item(s) in cart:") t

/-- The if/elif chain over Formats 1-5 (run after Format 0, on the same text). -/
def formats1to5 (t : List Char) (cd : CartData) : Option CartData :=
  if guard1 t then format1 t cd
  else if guard2 t then format2 t cd
  else if guard3 t then format3 t cd
  else if guard4 t then format4 t cd
  else format5 t cd

/-- Body of _extract_cart_from_agent_response on the captured, stripped cart
text: inl = structured cart returned, inr = raw text fallback (no items found);
none models an exception (the Python function then returns None). -/
def parseCartText (cartText : List Char) : Option (CartData ⊕ List Char) := do
  let cd0 ← format0 cartText initCartData
  let cd ← formats1to5 cartText cd0
  if cd.items.isEmpty then pure (.inr cartText) else pure (.inl cd)

/-- Capture of the regex '- Tool: get_cart_content \| Result: (.*?)(?=\n- Tool:|$)'
under re.DOTALL: the text after the first marker, up to the next '\n- Tool:' or
the end of the input. ($ can also match just before one trailing newline, but
the capture is stripped immediately, which makes the two readings equal. -/
def captureCartText (response : List Char) : Option (List Char) :=
  match splitFirst (sl "- Tool: get_cart_content | Result: ") response with
  | none => none
  | some (_, rest) => some (pyStrip (takeUntilSub (sl "\n- Tool:") rest))

/-- _extract_cart_from_agent_response: Tier B reconciliation from the transcript. -/
def extract_cart_from_agent_response (response : List Char) :
    Option (CartData ⊕ List Char) :=
  match captureCartText response with
  | none => none
  | some t => parseCartText t

/-- Join a list of strings with a separator (Python sep.join(xs)). -/
def joinSepL (sep : List Char) : List (List Char) → List Char
  | [] => []
  | [x] => x
  | x :: y :: t => x ++ sep ++ joinSepL sep (y :: t)

/-- Python v == "literal" for a string literal right-hand side. -/
def pvEqStr (v : PyVal) (s : List Char) : Bool :=
  match v with
  | .vstr t => t == s
  | _ => false

/-- One tool-call record dict. The four keys are always present (every record
constructor in the source builds all of them); status is always a plain string. -/
structure ToolCall where
  tool_name : PyVal
  arguments : PyVal
  result : PyVal
  status : List Char

/-- Result of _extract_cart_from_tool_calls: a structured snapshot dict, a plain
text fallback, or the error dict built by the top-level except handler (the
message text of the error dict is not modelled). -/
inductive TCResult where
  | snapshot (cd : CartData)
  | text (s : List Char)
  | errDict

/-- Mutable loop state of _extract_cart_from_tool_calls. (The local cart_data
variable is not part of the state: every assignment to it is immediately
followed by a return, so it is still None whenever the loop continues.) -/
structure TCState where
  cart_items : List (List Char)
  total_cost : Option PyVal
  cart_content_result : Option (List Char)

/-- Initial loop state. -/
def initTCState : TCState :=
  { cart_items := [], total_cost := none, cart_content_result := none }

/-- Conversion of a decoded get_cart_content JSON object into the standard cart
dict — the block duplicated at lines 587-606 and 630-649 of rohlik_agent.py.
none models an exception reaching the top-level handler. Python evaluates
default arguments eagerly, so len(cart_info.get('items', [])) runs (and can
raise) even when the total_items key is present. -/
def buildCartFromInfo (cart_info : PyVal) : Option CartData := do
  let itemsD ← pyGetD cart_info (sl "items") (.vlist [])
  let lenD ← pyLen itemsD
  let ti ← pyGetD cart_info (sl "total_items") (.vnum lenD)
  let tpDflt ← pyGetD cart_info (sl "total") (.vstr (sl "0"))
  let tpRaw ← pyGetD cart_info (sl "total_price") tpDflt
  let tp ←
    if pvIsIntFloat tpRaw then pvToQ tpRaw
    else parseFloatChars (pyStrip (replaceSub (sl ",") (sl ".")
      (replaceSub (sl "€") [] (pvToStr tpRaw))))
  let cur ← pyGetD cart_info (sl "currency") (.vstr (sl "EUR"))
  let prodD ← pyGetD cart_info (sl "items") (.vlist [])
  let products ← pyGetD cart_info (sl "products") prodD
  let elems ← pyIter products
  let items ← buildCartItemsLoop cart_info elems
  pure { items := items, total_items := ti, total_price := tp, currency := cur }
where
  /-- The product loop of the conversion block. -/
  buildCartItemsLoop (cart_info : PyVal) : List PyVal → Option (List CartItem)
    | [] => pure []
    | product :: rest => do
      let nm ← pyGetD product (sl "name") (.vstr [])
      let qv ← pyGetD product (sl "quantity") (.vnum 1)
      let pRaw ← pyGetD product (sl "price") .vnone
      let p ←
        if pvIsIntFloat pRaw then pvToQ pRaw
        else do
          let pr2 ← pyGetD product (sl "price") (.vstr (sl "0"))
          parseFloatChars (pyStrip (replaceSub (sl ",") (sl ".")
            (replaceSub (sl "€") [] (pvToStr pr2))))
      let cur2 ← pyGetD cart_info (sl "currency") (.vstr (sl "EUR"))
      let cidD ← pyGetD product (sl "cart_item_id") .vnone
      let pid ← pyGetD product (sl "product_id") cidD
      let restItems ← buildCartItemsLoop cart_info rest
      pure (mkItem nm qv p cur2 (some pid) :: restItems)

/-- After json.loads succeeded: when the value is an object, choose the cart
sub-object when present and convert it. none = exception; some (some cd) =
converted snapshot (returned immediately by the caller); some none = the
decoded value is not an object, the loop just continues. -/
def parsedToCart (parsed : PyVal) : Option (Option CartData) :=
  match parsed with
  | .vdict kvs =>
    let cart_info :=
      if kvs.any (fun kv => kv.1 == sl "cart") then (dictFind kvs (sl "cart")).getD .vnone
      else .vdict kvs
    (match buildCartFromInfo cart_info with
     | some cd => some (some cd)
     | none => none)
  | _ => some none

/-- Body of the add_to_cart branch of the record loop; none models an exception
('x' in None raises TypeError, etc.). The record dict always has the result and
arguments keys, so the 'result' in call / 'arguments' in call guards are true. -/
def addToCartStep (st : TCState) (call : ToolCall) : Option TCState := do
  let hasTC ← pyContainsStr (sl "total_cost") call.result
  let st1 ←
    if hasTC then do
      let v ← pyIndexStr call.result (sl "total_cost")
      pure { st with total_cost := some v }
    else pure st
  let hasProds ← pyContainsStr (sl "products") call.arguments
  let st2 ←
    if hasProds then do
      let v ← pyIndexStr call.arguments (sl "products")
      pure { st1 with cart_items := st1.cart_items ++ [sl "Products added: " ++ pvToStr v] }
    else pure st1
  let hasQty ← pyContainsStr (sl "quantity") call.arguments
  if hasQty then do
    let v ← pyIndexStr call.arguments (sl "quantity")
    pure { st2 with cart_items := st2.cart_items ++ [sl "Quantity: " ++ pvToStr v] }
  else pure st2

/-- Body of the get_cart_content branch: none = exception; inl = early return
of a converted snapshot; inr = updated state, loop continues. -/
def getCartStep (st : TCState) (call : ToolCall) : Option (TCResult ⊕ TCState) :=
  if pyTruthy call.result then
    match call.result with
    | .vdict kvs =>
      if kvs.any (fun kv => kv.1 == sl "cart_summary") then
        match dictFind kvs (sl "cart_summary") with
        | some (.vstr js) =>
          (match jsonLoads js with
           | none => some (.inr { st with
               cart_content_result := some (pvToStr (.vdict kvs)) })
           | some parsed =>
             match parsedToCart parsed with
             | none => none
             | some (some cd) => some (.inl (.snapshot cd))
             | some none => some (.inr st))
        | _ => none
      else some (.inr { st with cart_content_result := some (pvToStr (.vdict kvs)) })
    | .vstr s =>
      (match jsonLoads s with
       | none => some (.inr { st with cart_content_result := some s })
       | some parsed =>
         match parsedToCart parsed with
         | none => none
         | some (some cd) => some (.inl (.snapshot cd))
         | some none => some (.inr st))
    | rd => some (.inr { st with cart_content_result := some (pvToStr rd) })
  else
    some (.inr { st with
      cart_content_result := some (sl "Cart content retrieved but not parsed") })

/-- Outcome of one iteration of the record loop. -/
inductive StepRes where
  | cont (st : TCState)
  | ret (r : TCResult)

/-- One iteration of the record loop of _extract_cart_from_tool_calls. -/
def processCall (st : TCState) (call : ToolCall) : StepRes :=
  if pvEqStr call.tool_name (sl "add_to_cart") then
    match addToCartStep st call with
    | some st' => .cont st'
    | none => .ret .errDict
  else if pvEqStr call.tool_name (sl "get_cart_content") then
    match getCartStep st call with
    | some (.inl r) => .ret r
    | some (.inr st') => .cont st'
    | none => .ret .errDict
  else .cont st

/-- The record loop: final state, or the early-returned value. -/
def foldCalls (st : TCState) : List ToolCall → TCState ⊕ TCResult
  | [] => .inl st
  | c :: rest =>
    match processCall st c with
    | .cont st' => foldCalls st' rest
    | .ret r => .inr r

/-- The add_to_cart summary fallback and the no-data marker (lines 670-677). -/
def finalizeCartItems (st : TCState) : TCResult :=
  if !st.cart_items.isEmpty then
    let s1 := sl "Cart Summary:\n" ++ joinSepL (sl "\n") st.cart_items
    let s2 := match st.total_cost with
      | some tc => if pyTruthy tc then s1 ++ sl "\nTotal Cost: " ++ pvToStr tc else s1
      | none => s1
    .text s2
  else .text (sl "No cart items found in tool calls")

/-- Post-loop fallback chain of _extract_cart_from_tool_calls (lines 661-677). -/
def finalizeTC (st : TCState) : TCResult :=
  match st.cart_content_result with
  | some s =>
    if !s.isEmpty && s != sl "Cart content retrieved but not parsed" then .text s
    else finalizeCartItems st
  | none => finalizeCartItems st

/-- _extract_cart_from_tool_calls: Tier A reconciliation from tool-call records. -/
def extract_cart_from_tool_calls (calls : List ToolCall) : TCResult :=
  match foldCalls initTCState calls with
  | .inl st => finalizeTC st
  | .inr r => r

/-- Dict-key assignment on a PyVal known to be a dict (our records' arguments
and result fields always are); identity otherwise. -/
def pvDictSet (v : PyVal) (key : List Char) (val : PyVal) : PyVal :=
  match v with
  | .vdict kvs => .vdict (dictSet kvs key val)
  | other => other

/-- The fresh record dict created for each '- Tool:' line of the transcript
summary (line 431-436 of rohlik_agent.py): status starts as "success" and no
part rule ever touches it. -/
def initPTRecord : ToolCall :=
  { tool_name := .vstr (sl "unknown"), arguments := .vdict [], result := .vdict [],
    status := sl "success" }

/-- One pipe-delimited part of a '- Tool:' line, applied to the record being
built; also threads the cart-content capture state (lines, flag). -/
def applyPart (tc : ToolCall) (ccl : List (List Char)) (icc : Bool)
    (part : List Char) : ToolCall × List (List Char) × Bool :=
  if startsWithL (sl "Tool: ") part then
    ({ tc with tool_name := .vstr (part.drop 6) }, ccl, icc)
  else if startsWithL (sl "Query: ") part then
    ({ tc with arguments := pvDictSet tc.arguments (sl "product_name") (.vstr (part.drop 7)) },
      ccl, icc)
  else if startsWithL (sl "Results: ") part then
    ({ tc with result := pvDictSet tc.result (sl "results_count") (.vstr (part.drop 9)) },
      ccl, icc)
  else if startsWithL (sl "Selected: ") part then
    ({ tc with result := pvDictSet tc.result (sl "selected_product") (.vstr (part.drop 10)) },
      ccl, icc)
  else if startsWithL (sl "Price: ") part then
    ({ tc with result := pvDictSet tc.result (sl "price") (.vstr (part.drop 7)) }, ccl, icc)
  else if startsWithL (sl "Categories: ") part then
    ({ tc with result := pvDictSet tc.result (sl "categories") (.vstr (part.drop 12)) },
      ccl, icc)
  else if startsWithL (sl "Products: ") part then
    ({ tc with arguments := pvDictSet tc.arguments (sl "products") (.vstr (part.drop 10)) },
      ccl, icc)
  else if startsWithL (sl "Quantity: ") part then
    ({ tc with arguments := pvDictSet tc.arguments (sl "quantity") (.vstr (part.drop 10)) },
      ccl, icc)
  else if startsWithL (sl "Total Cost: ") part then
    ({ tc with result := pvDictSet tc.result (sl "total_cost") (.vstr (part.drop 12)) },
      ccl, icc)
  else if startsWithL (sl "Total: ") part then
    ({ tc with result := pvDictSet tc.result (sl "total_cost") (.vstr (part.drop 7)) },
      ccl, icc)
  else if startsWithL (sl "Result: ") part then
    if pvEqStr tc.tool_name (sl "get_cart_content") then
      let rc := pyStrip (part.drop 8)
      (tc, if rc.isEmpty then [] else [rc], true)
    else
      ({ tc with result := pvDictSet tc.result (sl "cart_summary") (.vstr (part.drop 8)) },
        ccl, icc)
  else (tc, ccl, icc)

/-- Fold of applyPart over the parts of one '- Tool:' line. -/
def applyParts (tc : ToolCall) (ccl : List (List Char)) (icc : Bool) :
    List (List Char) → ToolCall × List (List Char) × Bool
  | [] => (tc, ccl, icc)
  | p :: rest =>
    let (tc', ccl', icc') := applyPart tc ccl icc p
    applyParts tc' ccl' icc' rest

/-- Loop state of _parse_tool_calls_from_response; brk models the Python break. -/
structure PTState where
  in_summary : Bool
  current : Option ToolCall
  cart_content_lines : List (List Char)
  in_cart_content : Bool
  acc : List ToolCall
  brk : Bool

/-- Initial parser state. -/
def initPTState : PTState :=
  { in_summary := false, current := none, cart_content_lines := [],
    in_cart_content := false, acc := [], brk := false }

/-- One line of the _parse_tool_calls_from_response loop. -/
def ptLine (st : PTState) (line : List Char) : PTState :=
  if st.brk then st
  else if hasSub (sl "TOOL_CALLS_SUMMARY:") line then { st with in_summary := true }
  else
    let l := pyStrip line
    if st.in_summary && startsWithL (sl "- Tool:") l then
      let acc' := match st.current with
        | some c => st.acc ++ [c]
        | none => st.acc
      let parts := splitOnSub (sl " | ") (l.drop 2)
      let (tc, ccl, icc) :=
        applyParts initPTRecord st.cart_content_lines st.in_cart_content parts
      { st with acc := acc', current := some tc,
                cart_content_lines := ccl, in_cart_content := icc }
    else if st.in_summary && st.in_cart_content && st.current.isSome then
      if startsWithL (sl "  - Product:") l || startsWithL (sl "  - Total:") l then
        { st with cart_content_lines := st.cart_content_lines ++ [l] }
      else if l.isEmpty || startsWithL (sl "- Tool:") l then
        let joined : PyVal := .vstr (joinSepL (sl "\n") st.cart_content_lines)
        let cur' :=
          if !st.cart_content_lines.isEmpty then
            st.current.map (fun c =>
              { c with result := pvDictSet c.result (sl "cart_summary") joined })
          else st.current
        { st with current := cur', in_cart_content := false, cart_content_lines := [] }
      else st
    else if st.in_summary && l.isEmpty then
      let acc' := match st.current with
        | some c => st.acc ++ [c]
        | none => st.acc
      { st with acc := acc', brk := true }
    else st

/-- _parse_tool_calls_from_response: records parsed from the transcript's
TOOL_CALLS_SUMMARY section. The trailing append runs even after a break (so a
record closed by a blank line is appended twice, as in the source). -/
def parse_tool_calls_from_response (response : List Char) : List ToolCall :=
  if hasSub (sl "TOOL_CALLS_SUMMARY:") response then
    let st := (splitOnSub (sl "\n") response).foldl ptLine initPTState
    match st.current with
    | some c => st.acc ++ [c]
    | none => st.acc
  else []

/-- A raw tool-call object of the agent framework; none models an absent
attribute (getattr default applies). -/
structure NativeCall where
  name : Option PyVal
  arguments : Option PyVal
  result : Option PyVal

/-- A cycle grouping of the framework result. -/
structure NativeCycle where
  tool_calls : Option (List NativeCall)

/-- The session-state container of the framework result. -/
structure NativeState where
  tool_calls : Option (List NativeCall)

/-- The agent result object, as probed by _extract_actual_tool_calls. -/
structure AgentResult where
  cycles : Option (List NativeCycle)
  tool_calls : Option (List NativeCall)
  state : Option NativeState

/-- hasattr(o, f) and o.f for a list-valued attribute (empty lists are falsy). -/
def optListTruthy {α : Type} : Option (List α) → Bool
  | some l => !l.isEmpty
  | none => false

/-- Record built from a native call (lines 279-284 etc. of rohlik_agent.py):
status is "success" exactly when getattr(call, 'result', None) is not None. -/
def nativeRecord (call : NativeCall) : ToolCall :=
  let r := call.result.getD .vnone
  { tool_name := call.name.getD (.vstr (sl "unknown")),
    arguments := call.arguments.getD (.vdict []),
    result := r,
    status := match r with | .vnone => sl "unknown" | _ => sl "success" }

/-- _extract_actual_tool_calls: records decoded from the framework's native
structured history (cycles, then direct tool_calls, then session state). -/
def extract_actual_tool_calls (res : AgentResult) : List ToolCall :=
  if optListTruthy res.cycles then
    (res.cycles.getD []).foldl
      (fun acc cyc =>
        if optListTruthy cyc.tool_calls then
          acc ++ (cyc.tool_calls.getD []).map nativeRecord
        else acc) []
  else if optListTruthy res.tool_calls then
    (res.tool_calls.getD []).map nativeRecord
  else
    match res.state with
    | some stobj =>
      if optListTruthy stobj.tool_calls then (stobj.tool_calls.getD []).map nativeRecord
      else []
    | none => []

/-- Per-tool raw counters of the framework's ToolMetrics object. -/
structure RawToolMetric where
  call_count : Nat
  success_count : Nat
  error_count : Nat
  total_time : ℚ

/-- The framework's EventLoopMetrics object as read by _extract_metrics. The
cycle_count field and the cycle_durations list are independent fields of the
raw object. -/
structure RawMetrics where
  accumulated_usage : List (List Char × ℚ)
  accumulated_metrics : List (List Char × ℚ)
  cycle_count : Nat
  cycle_durations : List ℚ
  tool_metrics : List (List Char × RawToolMetric)

/-- One normalized per-tool metrics entry. -/
structure ToolMetricOut where
  call_count : Nat
  success_count : Nat
  error_count : Nat
  success_rate : ℚ
  total_time : ℚ
  average_time : ℚ

/-- The normalized metrics record built by _extract_metrics. -/
structure MetricsData where
  inputTokens : ℚ
  outputTokens : ℚ
  totalTokens : ℚ
  cacheWriteInputTokens : ℚ
  cacheReadInputTokens : ℚ
  latencyMs : ℚ
  cycle_count : Nat
  cycle_durations : List ℚ
  total_duration : ℚ
  average_cycle_time : ℚ
  tool_metrics : List (List Char × ToolMetricOut)

/-- dict.get(key, 0) over a numeric mapping. -/
def lookupQ (kvs : List (List Char × ℚ)) (k : List Char) : ℚ :=
  match kvs with
  | [] => 0
  | (key, v) :: t => if key == k then v else lookupQ t k

/-- _extract_metrics on a present raw statistics object (when result.metrics is
absent the Python except handler exports an error record instead). -/
def extract_metrics (m : RawMetrics) : MetricsData :=
  { inputTokens := lookupQ m.accumulated_usage (sl "inputTokens"),
    outputTokens := lookupQ m.accumulated_usage (sl "outputTokens"),
    totalTokens := lookupQ m.accumulated_usage (sl "totalTokens"),
    cacheWriteInputTokens := lookupQ m.accumulated_usage (sl "cacheWriteInputTokens"),
    cacheReadInputTokens := lookupQ m.accumulated_usage (sl "cacheReadInputTokens"),
    latencyMs := lookupQ m.accumulated_metrics (sl "latencyMs"),
    cycle_count := m.cycle_count,
    cycle_durations := m.cycle_durations,
    total_duration := m.cycle_durations.sum,
    average_cycle_time :=
      if m.cycle_durations.isEmpty then 0
      else m.cycle_durations.sum / (m.cycle_durations.length : ℚ),
    tool_metrics := m.tool_metrics.map (fun kv =>
      (kv.1,
        { call_count := kv.2.call_count,
          success_count := kv.2.success_count,
          error_count := kv.2.error_count,
          success_rate :=
            if kv.2.call_count > 0 then
              (kv.2.success_count : ℚ) / (kv.2.call_count : ℚ)
            else 0,
          total_time := kv.2.total_time,
          average_time :=
            if kv.2.call_count > 0 then kv.2.total_time / (kv.2.call_count : ℚ)
            else 0 })) }

/-- Python sum(xs) over a list of values (start 0); none models TypeError. -/
def pySum (xs : List PyVal) : Option ℚ :=
  xs.foldlM (fun acc v => (pvToQ v).map (fun q => acc + q)) 0

/-- Python '; '.join style: every element must be a string (TypeError otherwise). -/
def joinPyStrs (sep : List Char) (xs : List PyVal) : Option (List Char) := do
  let strs ← xs.mapM (fun v => match v with | .vstr s => some s | _ => none)
  pure (joinSepL sep strs)

/-- run.get('metrics', default).get(key, default2) chains used by the detailed
report. -/
def getGet (run : PyVal) (k1 : List Char) (d1 : PyVal) (k2 : List Char)
    (d2 : PyVal) : Option PyVal := do
  let v1 ← pyGetD run k1 d1
  pyGetD v1 k2 d2


/-- Token cells of a detailed row (csv_generator.py lines 71-76): usage dict
then the five token counters. Split from detailedRow only to keep elaboration
cheap; the computation is the straight-line source order. -/
def detailedTokens (run : PyVal) : Option (PyVal × PyVal × PyVal × PyVal × PyVal) := do
  let usage ← getGet run (sl "metrics") (.vdict []) (sl "accumulated_usage") (.vdict [])
  let totalTokens ← pyGetD usage (sl "totalTokens") (.vnum 0)
  let inputTokens ← pyGetD usage (sl "inputTokens") (.vnum 0)
  let outputTokens ← pyGetD usage (sl "outputTokens") (.vnum 0)
  let cacheRead ← pyGetD usage (sl "cacheReadInputTokens") (.vnum 0)
  let cacheWrite ← pyGetD usage (sl "cacheWriteInputTokens") (.vnum 0)
  pure (totalTokens, inputTokens, outputTokens, cacheRead, cacheWrite)

/-- Cart cells of a detailed row (lines 81-90): raises AttributeError (none)
when cart_data is a plain string fallback instead of a dict. -/
def detailedCart (run : PyVal) :
    Option (PyVal × PyVal × PyVal × ℚ × List PyVal × List PyVal) := do
  let cart_data ← pyGetD run (sl "cart_data") (.vdict [])
  let totalItems ← pyGetD cart_data (sl "total_items") (.vnum 0)
  let totalPrice ← pyGetD cart_data (sl "total_price") (.vnum 0)
  let currency ← pyGetD cart_data (sl "currency") (.vstr (sl "EUR"))
  let itemsV ← pyGetD cart_data (sl "items") (.vlist [])
  let itemsCount ← pyLen itemsV
  let items ← pyIter itemsV
  let itemNames ← items.mapM (fun it => pyGetD it (sl "name") (.vstr []))
  let itemPrices ← items.mapM (fun it => pyGetD it (sl "price") (.vnum 0))
  pure (totalItems, totalPrice, currency, itemsCount, itemNames, itemPrices)

/-- Tool-call count cells of a detailed row (lines 93-97). -/
def detailedTools (run : PyVal) : Option (PyVal × PyVal × PyVal × PyVal) := do
  let toolMetrics ← getGet run (sl "metrics") (.vdict []) (sl "tool_metrics") (.vdict [])
  let searchTm ← pyGetD toolMetrics (sl "search_products") (.vdict [])
  let searchCalls ← pyGetD searchTm (sl "call_count") (.vnum 0)
  let addTm ← pyGetD toolMetrics (sl "add_to_cart") (.vdict [])
  let addCalls ← pyGetD addTm (sl "call_count") (.vnum 0)
  let getTm ← pyGetD toolMetrics (sl "get_cart_content") (.vdict [])
  let getCalls ← pyGetD getTm (sl "call_count") (.vnum 0)
  let t1 ← pyAdd searchCalls addCalls
  let totalToolCalls ← pyAdd t1 getCalls
  pure (totalToolCalls, searchCalls, addCalls, getCalls)

/-- One row of generate_detailed_csv (csv_generator.py lines 65-119), as the
list of cell values in field order; none models an exception. The csv writer's
final text rendering of the cells is presentation and is not modelled. -/
def detailedRow (run : PyVal) : Option (List PyVal) := do
  let timestamp ← pyGetD run (sl "timestamp") (.vstr [])
  let execTime ← pyGetD run (sl "execution_time_seconds") (.vnum 0)
  let (totalTokens, inputTokens, outputTokens, cacheRead, cacheWrite) ←
    detailedTokens run
  let cycleCount ← getGet run (sl "metrics") (.vdict []) (sl "cycle_count") (.vnum 0)
  let (totalItems, totalPrice, currency, itemsCount, itemNames, itemPrices) ←
    detailedCart run
  let (totalToolCalls, searchCalls, addCalls, getCalls) ← detailedTools run
  let joinedNames ← joinPyStrs (sl "; ") itemNames
  let avgItemPrice ←
    if itemPrices.isEmpty then pure (PyVal.vnum 0)
    else (pySum itemPrices).map (fun s => PyVal.vnum (s / (itemPrices.length : ℚ)))
  let task ← pyGetD run (sl "task") (.vstr [])
  pure [timestamp, execTime, totalTokens, inputTokens, outputTokens, cacheRead,
    cacheWrite, cycleCount, totalItems, totalPrice, currency, .vnum itemsCount,
    .vstr joinedNames, avgItemPrice, totalToolCalls, searchCalls, addCalls,
    getCalls, task]

/-- Insert into a sorted rational list (ascending). -/
def insertSorted (x : ℚ) : List ℚ → List ℚ
  | [] => [x]
  | y :: t => if x ≤ y then x :: y :: t else y :: insertSorted x t

/-- Insertion sort, for statistics.median. -/
def sortQ (l : List ℚ) : List ℚ := l.foldr insertSorted []

/-- statistics.median; none on an empty list (StatisticsError). -/
def medianQ (l : List ℚ) : Option ℚ :=
  let s := sortQ l
  let n := s.length
  if n = 0 then none
  else if n % 2 = 1 then s.get? (n / 2)
  else do
    let a ← s.get? (n / 2 - 1)
    let b ← s.get? (n / 2)
    pure ((a + b) / 2)

/-- statistics.mean; none on an empty list. -/
def meanQ (l : List ℚ) : Option ℚ :=
  if l.isEmpty then none else some (l.sum / (l.length : ℚ))

/-- Smallest element (Python min); none on an empty list. -/
def minQ (l : List ℚ) : Option ℚ :=
  match l with
  | [] => none
  | x :: t => some (t.foldl (fun a b => if b < a then b else a) x)

/-- Largest element (Python max); none on an empty list. -/
def maxQ (l : List ℚ) : Option ℚ :=
  match l with
  | [] => none
  | x :: t => some (t.foldl (fun a b => if a < b then b else a) x)

/-- run['a']['b'] double indexing. -/
def idx2 (run : PyVal) (k1 k2 : List Char) : Option PyVal := do
  let v ← pyIndexStr run k1
  pyIndexStr v k2

/-- The aggregate values computed by generate_summary_csv (csv_generator.py
lines 131-160). The f-string decimal rendering of the values into the csv rows
is presentation and is not modelled. -/
structure SummaryStats where
  total_runs : Nat
  mean_exec : ℚ
  median_exec : ℚ
  min_exec : ℚ
  max_exec : ℚ
  mean_total_tokens : ℚ
  mean_input_tokens : ℚ
  mean_output_tokens : ℚ
  mean_cache_read : ℚ
  sum_cache_read : ℚ
  mean_cycles : ℚ
  mean_cart_total : ℚ
  mean_item_count : ℚ
  sum_item_counts : ℚ
  sum_cart_totals : ℚ

/-- Collect one numeric field from every run; a missing key or a non-numeric
value handed to the statistics functions is an exception (none). -/
def collectQ (runs : List PyVal) (f : PyVal → Option PyVal) : Option (List ℚ) :=
  runs.mapM (fun r => do
    let v ← f r
    pvToQ v)

/-- The first four field collections of generate_summary_csv (lines 134-137). -/
def summaryCollectA (runs : List PyVal) :
    Option (List ℚ × List ℚ × List ℚ × List ℚ) := do
  let execTimes ← collectQ runs (fun r => pyIndexStr r (sl "execution_time_seconds"))
  let totalTokens ← collectQ runs (fun r => do
    let u ← idx2 r (sl "metrics") (sl "accumulated_usage")
    pyIndexStr u (sl "totalTokens"))
  let inputTokens ← collectQ runs (fun r => do
    let u ← idx2 r (sl "metrics") (sl "accumulated_usage")
    pyIndexStr u (sl "inputTokens"))
  let outputTokens ← collectQ runs (fun r => do
    let u ← idx2 r (sl "metrics") (sl "accumulated_usage")
    pyIndexStr u (sl "outputTokens"))
  pure (execTimes, totalTokens, inputTokens, outputTokens)

/-- The last four field collections of generate_summary_csv (lines 138-141). -/
def summaryCollectB (runs : List PyVal) :
    Option (List ℚ × List ℚ × List ℚ × List ℚ) := do
  let cacheRead ← collectQ runs (fun r => do
    let u ← idx2 r (sl "metrics") (sl "accumulated_usage")
    pyGetD u (sl "cacheReadInputTokens") (.vnum 0))
  let cycles ← collectQ runs (fun r => idx2 r (sl "metrics") (sl "cycle_count"))
  let cartTotals ← collectQ runs (fun r => idx2 r (sl "cart_data") (sl "total_price"))
  let itemCounts ← collectQ runs (fun r => idx2 r (sl "cart_data") (sl "total_items"))
  pure (cacheRead, cycles, cartTotals, itemCounts)

/-- Mean/median/min/max of the execution times (lines 147-150). -/
def summaryExecStats (execTimes : List ℚ) : Option (ℚ × ℚ × ℚ × ℚ) := do
  let m ← meanQ execTimes
  let md ← medianQ execTimes
  let mn ← minQ execTimes
  let mx ← maxQ execTimes
  pure (m, md, mn, mx)

/-- Assembly of the summary values from the collected columns. -/
def summaryAgg (n : Nat) (execTimes tt it ot cr cy ct ic : List ℚ) :
    Option SummaryStats := do
  let (meanExec, medianExec, minExec, maxExec) ← summaryExecStats execTimes
  let meanTT ← meanQ tt
  let meanIT ← meanQ it
  let meanOT ← meanQ ot
  let meanCR ← meanQ cr
  let meanCy ← meanQ cy
  let meanCT ← meanQ ct
  let meanIC ← meanQ ic
  pure
    { total_runs := n, mean_exec := meanExec, median_exec := medianExec,
      min_exec := minExec, max_exec := maxExec, mean_total_tokens := meanTT,
      mean_input_tokens := meanIT, mean_output_tokens := meanOT,
      mean_cache_read := meanCR, sum_cache_read := cr.sum, mean_cycles := meanCy,
      mean_cart_total := meanCT, mean_item_count := meanIC,
      sum_item_counts := ic.sum, sum_cart_totals := ct.sum }

/-- generate_summary_csv (lines 124-163): on an empty run list the source
prints and returns without producing statistics (folded into none together
with the exception outcome); otherwise a KeyError on an error-only metrics
dict or a TypeError on a textual cart_data is an exception (none). -/
def summaryStats (runs : List PyVal) : Option SummaryStats :=
  if runs.isEmpty then none
  else do
    let (execTimes, totalTokens, inputTokens, outputTokens) ← summaryCollectA runs
    let (cacheRead, cycles, cartTotals, itemCounts) ← summaryCollectB runs
    summaryAgg runs.length execTimes totalTokens inputTokens outputTokens
      cacheRead cycles cartTotals itemCounts

/-- A wall-clock datetime as produced by datetime.now(). Microseconds are part
of the value but are dropped by the second-resolution export file name. -/
structure PyDateTime where
  year : Nat
  month : Nat
  day : Nat
  hour : Nat
  minute : Nat
  second : Nat
  microsecond : Nat
deriving DecidableEq

/-- Two-digit zero-padded field (faithful for the in-range values strftime
receives from a real datetime). -/
def pad2 (n : Nat) : List Char :=
  [Char.ofNat (48 + n / 10 % 10), Char.ofNat (48 + n % 10)]

/-- Four-digit zero-padded year. -/
def pad4 (n : Nat) : List Char :=
  [Char.ofNat (48 + n / 1000 % 10), Char.ofNat (48 + n / 100 % 10),
   Char.ofNat (48 + n / 10 % 10), Char.ofNat (48 + n % 10)]

/-- strftime("%Y%m%d_%H%M%S") — second resolution, microseconds dropped. -/
def formatTimestampName (d : PyDateTime) : List Char :=
  pad4 d.year ++ pad2 d.month ++ pad2 d.day ++ ['_'] ++
    pad2 d.hour ++ pad2 d.minute ++ pad2 d.second

/-- The per-run export file name built by _export_data (rohlik_agent.py
lines 1016-1017). -/
def exportFilename (d : PyDateTime) : List Char :=
  sl "shopping_run_" ++ formatTimestampName d ++ sl ".json"

/-- strftime('%Y-%m-%dT%H:%M:%S') used by the budget report. -/
def formatIso (d : PyDateTime) : List Char :=
  pad4 d.year ++ ['-'] ++ pad2 d.month ++ ['-'] ++ pad2 d.day ++ ['T'] ++
    pad2 d.hour ++ [':'] ++ pad2 d.minute ++ [':'] ++ pad2 d.second

/-- Read exactly n digits. -/
def readDigits (n : Nat) (cs : List Char) : Option (Nat × List Char) :=
  let d := cs.take n
  if d.length = n && d.all isDigitCh then some (digitsVal d, cs.drop n) else none

/-- Expect one separator character. -/
def expectCh (c : Char) : List Char → Option (List Char)
  | x :: t => if x = c then some t else none
  | [] => none

/-- datetime.fromisoformat on 'YYYY-MM-DD..HH:MM:SS...': the date part. -/
def parseIsoDate (cs : List Char) : Option (Nat × Nat × Nat × List Char) := do
  let (y, r1) ← readDigits 4 cs
  let r2 ← expectCh '-' r1
  let (mo, r3) ← readDigits 2 r2
  let r4 ← expectCh '-' r3
  let (dy, r5) ← readDigits 2 r4
  pure (y, mo, dy, r5)

/-- datetime.fromisoformat on 'YYYY-MM-DDTHH:MM:SS...'; the fractional-second
and timezone suffixes are accepted and ignored (the report's formatted output
drops them anyway). none models ValueError. -/
def parseIsoTimestamp (cs : List Char) : Option PyDateTime := do
  let (y, mo, dy, r5) ← parseIsoDate cs
  let r6 ← match r5 with
    | 'T' :: t => some t
    | ' ' :: t => some t
    | _ => none
  let (h, r7) ← readDigits 2 r6
  let r8 ← expectCh ':' r7
  let (mi, r9) ← readDigits 2 r8
  let r10 ← expectCh ':' r9
  let (s, _) ← readDigits 2 r10
  pure { year := y, month := mo, day := dy, hour := h, minute := mi, second := s,
         microsecond := 0 }

/-- Digits of a non-negative rounded value for :.2f rendering. -/
def fmt2core (q : ℚ) : List Char :=
  let n : Nat := (Int.floor (q * 100 + 1 / 2)).toNat
  (toString (n / 100)).toList ++ ['.'] ++ pad2 (n % 100)

/-- f-string :.2f rendering, approximated with round-half-up on the exact
rational (Python rounds the underlying binary float half-even; no claim
depends on the rendered digits). -/
def fmt2 (q : ℚ) : List Char :=
  if q < 0 then '-' :: fmt2core (-q) else fmt2core q

/-- Leading cells of a budget row (csv_generator.py lines 179-187): formatted
timestamp and the token counters, all indexed directly (KeyError = none). -/
def budgetHead (run : PyVal) :
    Option (List Char × PyVal × PyVal × PyVal × PyVal × PyVal) := do
  let tsRaw ← pyIndexStr run (sl "timestamp")
  let tsStr ← match tsRaw with
    | .vstr s => some s
    | _ => none
  let dt ← parseIsoTimestamp (replaceSub (sl "Z") (sl "+00:00") tsStr)
  let execTime ← pyIndexStr run (sl "execution_time_seconds")
  let usage ← idx2 run (sl "metrics") (sl "accumulated_usage")
  let inputTokens ← pyIndexStr usage (sl "inputTokens")
  let outputTokens ← pyIndexStr usage (sl "outputTokens")
  let totalTokens ← pyIndexStr usage (sl "totalTokens")
  let cacheRead ← pyGetD usage (sl "cacheReadInputTokens") (.vnum 0)
  pure (formatIso dt, execTime, inputTokens, outputTokens, totalTokens, cacheRead)

/-- Cart cells of a budget row (lines 188-195): total_items, the formatted
total price, and up to five formatted item columns. -/
def budgetCart (run : PyVal) :
    Option (PyVal × PyVal × List Char × List PyVal) := do
  let cycles ← idx2 run (sl "metrics") (sl "cycle_count")
  let items ← idx2 run (sl "cart_data") (sl "total_items")
  let tpRaw ← idx2 run (sl "cart_data") (sl "total_price")
  let tpQ ← pvToQ tpRaw
  let itemsRaw ← idx2 run (sl "cart_data") (sl "items")
  let itemList ← pyIter itemsRaw
  let cols ← (itemList.take 5).mapM (fun it => do
    let nm ← pyIndexStr it (sl "name")
    let pr ← pyIndexStr it (sl "price")
    let prQ ← pvToQ pr
    pure (PyVal.vstr (pvToStr nm ++ sl " (€" ++ fmt2 prQ ++ sl ")")))
  let itemCols := cols ++ List.replicate (5 - cols.length) (PyVal.vstr [])
  pure (cycles, items, sl "€" ++ fmt2 tpQ, itemCols)

/-- One row of generate_budget_format_csv (csv_generator.py lines 178-214);
none models an exception. -/
def budgetRow (run : PyVal) : Option (List PyVal) := do
  let (timestamp, execTime, inputTokens, outputTokens, totalTokens, cacheRead) ←
    budgetHead run
  let (cycles, items, totalPrice, itemCols) ← budgetCart run
  let task ← pyIndexStr run (sl "task")
  pure ([.vstr timestamp, task, execTime, inputTokens, outputTokens, totalTokens,
    cacheRead, cycles, items, .vstr totalPrice] ++ itemCols)

/-- Outcome of generate_all_reports. -/
inductive CsvOutcome where
  | reports (detailed : List (List PyVal)) (summary : SummaryStats)
      (budget : List (List PyVal))
  | noRunData
  | raised

/-- generate_all_reports on the loaded run records (csv_generator.py lines
219-257): ValueError on zero runs, otherwise the detailed, summary and budget
reports in that order; raised models an unhandled exception escaping from one
of the three generators (the __main__ handler then prints an unexpected-error
message). File writing is presentation and is not modelled. -/
def generate_all_reports (runs : List PyVal) : CsvOutcome :=
  if runs.isEmpty then .noRunData
  else
    match runs.mapM detailedRow with
    | none => .raised
    | some d =>
      match summaryStats runs with
      | none => .raised
      | some s =>
        match runs.mapM budgetRow with
        | none => .raised
        | some b => .reports d s b

/-! Concrete inputs used by the claim theorems, counterexamples and witnesses. -/

/-- C5's transcript: the Tier B Format 1 block from the spec's test vector. -/
def respC5 : List Char :=
  sl "TOOL_CALLS_SUMMARY:\n- Tool: get_cart_content | Result: Total items: 2 | Total price: 1.68 € | Items:\n- Milk (1x) | Price: 0.89 €\n- Bread (1x) | Price: 0.79 €"

/-- The snapshot the C5 transcript reconciles to. -/
def snapC5 : CartData :=
  { items := [mkItem (.vstr (sl "Milk")) (.vnum 1) (89 / 100) (.vstr (sl "EUR")) none,
      mkItem (.vstr (sl "Bread")) (.vnum 1) (79 / 100) (.vstr (sl "EUR")) none],
    total_items := .vnum 2, total_price := 168 / 100, currency := .vstr (sl "EUR") }

/-- C1/C2 helper: an add_to_cart record whose arguments carry a products note. -/
def c1AddRec : ToolCall :=
  { tool_name := .vstr (sl "add_to_cart"),
    arguments := .vdict [(sl "products", .vstr (sl "Milk"))],
    result := .vdict [], status := sl "success" }

/-- C1: a get_cart_content record whose cart_summary decodes to the empty JSON
object — zero line items. -/
def c1EmptyRec : ToolCall :=
  { tool_name := .vstr (sl "get_cart_content"), arguments := .vdict [],
    result := .vdict [(sl "cart_summary", .vstr (obrace :: [cbrace]))],
    status := sl "success" }

/-- A well-formed cart JSON payload with one Milk line item. -/
def milkJson : List Char :=
  [obrace] ++ sl "\"cart\": " ++ [obrace] ++
    sl "\"products\": [" ++ [obrace] ++
    sl "\"name\": \"Milk\", \"price\": \"0.99\", \"quantity\": 1" ++ [cbrace] ++
    sl "], \"total_price\": \"0.99\", \"currency\": \"EUR\"" ++ [cbrace] ++ [cbrace]

/-- C1: a later get_cart_content record that decodes to one line item. -/
def c1MilkRec : ToolCall :=
  { tool_name := .vstr (sl "get_cart_content"), arguments := .vdict [],
    result := .vdict [(sl "cart_summary", .vstr milkJson)], status := sl "success" }

/-- The item-less snapshot the reconciler returns for c1EmptyRec. -/
def c1EmptySnap : CartData :=
  { items := [], total_items := .vnum 0, total_price := 0, currency := .vstr (sl "EUR") }

/-- The one-item snapshot c1MilkRec decodes to (total_items is 0 because the
payload has a products key, not an items key, and no total_items). -/
def c1MilkSnap : CartData :=
  { items := [mkItem (.vstr (sl "Milk")) (.vnum 1) (99 / 100) (.vstr (sl "EUR"))
      (some .vnone)],
    total_items := .vnum 0, total_price := 99 / 100, currency := .vstr (sl "EUR") }

/-- The loop state after processing c1AddRec. -/
def c1StateAfterAdd : TCState :=
  { cart_items := [sl "Products added: Milk"], total_cost := none,
    cart_content_result := none }

/-- C2: a cart payload whose product price is the malformed string "abc". -/
def abcJson : List Char :=
  [obrace] ++ sl "\"cart\": " ++ [obrace] ++
    sl "\"products\": [" ++ [obrace] ++
    sl "\"name\": \"Milk\", \"price\": \"abc\"" ++ [cbrace] ++
    sl "], \"total_price\": \"1.0\"" ++ [cbrace] ++ [cbrace]

/-- C2: the get_cart_content record carrying the malformed price. -/
def c2AbcRec : ToolCall :=
  { tool_name := .vstr (sl "get_cart_content"), arguments := .vdict [],
    result := .vdict [(sl "cart_summary", .vstr abcJson)], status := sl "success" }

/-- C3: a transcript whose cart block is a JSON array that also contains the
Format 3 trigger substrings in an item name. -/
def respC3 : List Char :=
  sl "- Tool: get_cart_content | Result: [" ++ [obrace] ++
    sl "\"name\": \"2 items total (A: 1.50 €) | Total: 9.99 €\", \"price\": \"2 €\"" ++
    [cbrace] ++ sl "]"

/-- The cart text captured from respC3. -/
def c3text : List Char :=
  sl "[" ++ [obrace] ++
    sl "\"name\": \"2 items total (A: 1.50 €) | Total: 9.99 €\", \"price\": \"2 €\"" ++
    [cbrace] ++ sl "]"

/-- What Format 0 alone extracts from c3text: one item, total price 2. -/
def c3afterJson : CartData :=
  { items := [mkItem (.vstr (sl "2 items total (A: 1.50 €) | Total: 9.99 €"))
      (.vnum 1) 2 (.vstr (sl "EUR")) (some .vnone)],
    total_items := .vnum 1, total_price := 2, currency := .vstr (sl "EUR") }

/-- What the whole Tier B reconciliation returns for respC3: Format 3 has run
on top of the JSON result, appending an item and overriding the totals. -/
def c3result : CartData :=
  { items := [mkItem (.vstr (sl "2 items total (A: 1.50 €) | Total: 9.99 €"))
      (.vnum 1) 2 (.vstr (sl "EUR")) (some .vnone),
      mkItem (.vstr (sl "A")) (.vnum 1) (3 / 2) (.vstr (sl "EUR")) none],
    total_items := .vnum 2, total_price := 999 / 100, currency := .vstr (sl "EUR") }

/-- C4: raw statistics whose cycle_count (3) differs from the length of the
cycle_durations list (1). -/
def rawC4 : RawMetrics :=
  { accumulated_usage := [], accumulated_metrics := [], cycle_count := 3,
    cycle_durations := [6],
    tool_metrics := [(sl "search_products",
      { call_count := 0, success_count := 0, error_count := 0, total_time := 0 })] }

/-- C4 witness: raw statistics with cycle_count matching the durations list. -/
def rawC4w : RawMetrics :=
  { accumulated_usage := [], accumulated_metrics := [], cycle_count := 2,
    cycle_durations := [3, 1],
    tool_metrics := [(sl "add_to_cart",
      { call_count := 2, success_count := 1, error_count := 1, total_time := 5 })] }

/-- C6: a transcript cart block that is a JSON array with a negative price. -/
def respC6 : List Char :=
  sl "- Tool: get_cart_content | Result: [" ++ [obrace] ++
    sl "\"name\": \"x\", \"price\": \"-5\"" ++ [cbrace] ++ sl "]"

/-- The snapshot Tier B returns for respC6: a negative line-item price and a
negative total. -/
def c6result : CartData :=
  { items := [mkItem (.vstr (sl "x")) (.vnum 1) (-5) (.vstr (sl "EUR")) (some .vnone)],
    total_items := .vnum 1, total_price := -5, currency := .vstr (sl "EUR") }

/-- The non-negativity invariant claimed for every produced CartSnapshot. -/
def CartInv (cd : CartData) : Prop :=
  (∃ q : ℚ, cd.total_items = PyVal.vnum q ∧ 0 ≤ q) ∧ 0 ≤ cd.total_price ∧
    ∀ it ∈ cd.items, 0 ≤ it.price

/-- The JSON-array guard of Format 0 (cart text starts with [ and ends with ]). -/
def jsonArrayGuard (t : List Char) : Bool :=
  startsWithL (sl "[") (pyStrip t) && startsWithL (sl "]") (pyStrip t).reverse

/-- C7: a healthy metrics dict for run records. -/
def goodMetrics : PyVal :=
  .vdict [(sl "accumulated_usage", .vdict [(sl "totalTokens", .vnum 100),
      (sl "inputTokens", .vnum 60), (sl "outputTokens", .vnum 40)]),
    (sl "cycle_count", .vnum 3)]

/-- C7: a structured cart for run records. -/
def goodCart : PyVal :=
  .vdict [(sl "items", .vlist [.vdict [(sl "name", .vstr (sl "Milk")),
      (sl "price", .vnum (89 / 100))]]),
    (sl "total_items", .vnum 1), (sl "total_price", .vnum (89 / 100)),
    (sl "currency", .vstr (sl "EUR"))]

/-- C7: a fully structured exported run record. -/
def goodRun : PyVal :=
  .vdict [(sl "task", .vstr (sl "buy milk")),
    (sl "timestamp", .vstr (sl "2025-01-02T03:04:05.123456")),
    (sl "execution_time_seconds", .vnum 12),
    (sl "cart_data", goodCart), (sl "metrics", goodMetrics)]

/-- C7: a run whose cart_data is the reconciler's textual fallback string. -/
def badCartRun : PyVal :=
  .vdict [(sl "task", .vstr (sl "buy milk")),
    (sl "timestamp", .vstr (sl "2025-01-02T03:04:05")),
    (sl "execution_time_seconds", .vnum 12),
    (sl "cart_data", .vstr (sl "No cart items found in tool calls")),
    (sl "metrics", goodMetrics)]

/-- C7: a run whose metrics carry only the error field (the MetricsError path). -/
def errMetricsRun : PyVal :=
  .vdict [(sl "task", .vstr (sl "buy milk")),
    (sl "timestamp", .vstr (sl "2025-01-02T03:04:05")),
    (sl "execution_time_seconds", .vnum 12),
    (sl "cart_data", goodCart),
    (sl "metrics", .vdict [(sl "error", .vstr (sl "boom"))])]

/-- Discriminator: did generate_all_reports produce all three reports. -/
def isReports : CsvOutcome → Bool
  | .reports _ _ _ => true
  | _ => false

/-- C8: two completion instants in the same wall-clock second. -/
def c8dt1 : PyDateTime :=
  { year := 2025, month := 1, day := 2, hour := 3, minute := 4, second := 5,
    microsecond := 0 }

/-- C8: the same second, half a million microseconds later. -/
def c8dt2 : PyDateTime :=
  { year := 2025, month := 1, day := 2, hour := 3, minute := 4, second := 5,
    microsecond := 500000 }

/-- Same wall-clock second (the fields the export file name depends on). -/
def SameSecond (a b : PyDateTime) : Prop :=
  a.year = b.year ∧ a.month = b.month ∧ a.day = b.day ∧ a.hour = b.hour ∧
    a.minute = b.minute ∧ a.second = b.second

/-- Field bounds every real datetime satisfies (weakly: each strftime field
fits its zero-padded width). -/
def ValidDT (d : PyDateTime) : Prop :=
  d.year < 10000 ∧ d.month < 100 ∧ d.day < 100 ∧ d.hour < 100 ∧
    d.minute < 100 ∧ d.second < 100

/-- C9 witness: a transcript with one summary record. -/
def respC9w : List Char :=
  sl "TOOL_CALLS_SUMMARY:\n- Tool: add_to_cart | Products: Milk"

/-- The single record parsed from respC9w. -/
def c9Rec : ToolCall :=
  { tool_name := .vstr (sl "add_to_cart"),
    arguments := .vdict [(sl "products", .vstr (sl "Milk"))],
    result := .vdict [], status := sl "success" }

/-- C9 witness: a native tool call lacking any result value. -/
def c9NativeCall : NativeCall :=
  { name := some (.vstr (sl "search_products")), arguments := some (.vdict []),
    result := none }

/-- C9 witness: a native agent result exposing that one direct tool call. -/
def c9NativeRes : AgentResult :=
  { cycles := none, tool_calls := some [c9NativeCall], state := none }

/-- C10: a JSON-array cart block whose item name contains the Format 3
triggers; quantity 4, unit price 1. -/
def respC10x : List Char :=
  sl "- Tool: get_cart_content | Result: [" ++ [obrace] ++
    sl "\"name\": \"3 items total (B: 2.00 €) | Total: 7.77 €\", \"price\": \"1 €\", \"quantity\": 4" ++
    [cbrace] ++ sl "]"

/-- The cart text captured from respC10x. -/
def c10xtext : List Char :=
  sl "[" ++ [obrace] ++
    sl "\"name\": \"3 items total (B: 2.00 €) | Total: 7.77 €\", \"price\": \"1 €\", \"quantity\": 4" ++
    [cbrace] ++ sl "]"

/-- What Format 0 alone extracts from c10xtext: the quantity sum 4 and the
unit-price sum 1. -/
def c10xafterJson : CartData :=
  { items := [mkItem (.vstr (sl "3 items total (B: 2.00 €) | Total: 7.77 €"))
      (.vnum 4) 1 (.vstr (sl "EUR")) (some .vnone)],
    total_items := .vnum 4, total_price := 1, currency := .vstr (sl "EUR") }

/-- What Tier B actually returns for respC10x after Format 3 interferes. -/
def c10xresult : CartData :=
  { items := [mkItem (.vstr (sl "3 items total (B: 2.00 €) | Total: 7.77 €"))
      (.vnum 4) 1 (.vstr (sl "EUR")) (some .vnone),
      mkItem (.vstr (sl "B")) (.vnum 1) 2 (.vstr (sl "EUR")) none],
    total_items := .vnum 5, total_price := 777 / 100, currency := .vstr (sl "EUR") }

/-- C10 witness: a clean JSON-array cart block, quantity 2 at unit price 0.89. -/
def respC10w : List Char :=
  sl "- Tool: get_cart_content | Result: [" ++ [obrace] ++
    sl "\"name\": \"Milk\", \"price\": \"0.89 €\", \"quantity\": 2" ++ [cbrace] ++ sl "]"

/-- The cart text captured from respC10w. -/
def c10wtext : List Char :=
  sl "[" ++ [obrace] ++
    sl "\"name\": \"Milk\", \"price\": \"0.89 €\", \"quantity\": 2" ++ [cbrace] ++ sl "]"

/-- The snapshot for respC10w: total an unweighted 0.89 despite quantity 2. -/
def c10wresult : CartData :=
  { items := [mkItem (.vstr (sl "Milk")) (.vnum 2) (89 / 100) (.vstr (sl "EUR"))
      (some .vnone)],
    total_items := .vnum 2, total_price := 89 / 100, currency := .vstr (sl "EUR") }

/-- The classes of the captured groups of a pattern, in order (for the lemma
that every captured group lies inside its character class). -/
def clsOfItems : List RItem → List (Char → Bool)
  | [] => []
  | .lit _ :: r => clsOfItems r
  | .plusCls f :: r => f :: clsOfItems r
  | .starCls f :: r => f :: clsOfItems r
  | .lazyStar f :: r => f :: clsOfItems r

/-- Invariant of the transcript-parser loop: every accumulated record and the
record under construction carry status "success". -/
def PTInv (st : PTState) : Prop :=
  (∀ tc ∈ st.acc, tc.status = sl "success") ∧
    (∀ c, st.current = some c → c.status = sl "success")

/-- The quantity of a line item as a number (items built by the reconciler
always carry a numeric quantity; 1 is the Python default). -/
def itemQty (it : CartItem) : ℚ :=
  (pvToQ it.quantity).getD 1

/-- The quantity-weighted price of a line item. -/
def itemWeighted (it : CartItem) : ℚ :=
  itemQty it * it.price

def c10wElems : List PyVal :=
  [ .vdict [(sl "name", .vstr (sl "Milk")), (sl "price", .vstr (sl "2.50 €")),
      (sl "quantity", .vnum 2), (sl "product_id", .vnum 1)],
    .vdict [(sl "name", .vstr (sl "Bread")), (sl "price", .vstr (sl "1.50 €"))] ]

def c10wCd : CartData :=
  { items := [mkItem (.vstr (sl "Milk")) (.vnum 2) (5 / 2) (.vstr (sl "EUR"))
        (some (.vnum 1)),
      mkItem (.vstr (sl "Bread")) (.vnum 1) (3 / 2) (.vstr (sl "EUR")) (some .vnone)],
    total_items := .vnum 3, total_price := 4, currency := .vstr (sl "EUR") }

/-- C6 witness: a Format-3 style transcript cart text. -/
def c6wtext : List Char :=
  sl "2 items total (A: 1.50 €, B: 2.00 €) | Total: 3.50 €"

/-- The snapshot Tier B returns for c6wtext. -/
def c6wresult : CartData :=
  { items := [mkItem (.vstr (sl "A")) (.vnum 1) (3 / 2) (.vstr (sl "EUR")) none,
      mkItem (.vstr (sl "B")) (.vnum 1) 2 (.vstr (sl "EUR")) none],
    total_items := .vnum 2, total_price := 7 / 2, currency := .vstr (sl "EUR") }

/-! Claim theorems, counterexamples and witnesses. -/

/-- C5: given no tool-call records and a transcript whose get_cart_content
summary entry carries the 'Total items: 2 | Total price: 1.68 € | Items:'
block followed by the Milk and Bread lines, transcript reconciliation returns
a CartSnapshot with exactly those two line items (0.89 and 0.79) and
total_price 1.68. -/
theorem C5_format1_transcript_reconciliation :
    extract_cart_from_agent_response respC5 = some (.inl snapC5) ∧
    snapC5.items.length = 2 ∧ snapC5.total_price = 168 / 100 := by
  exact ⟨by with_unfolding_all rfl, rfl, rfl⟩

/-- C1 counterexample: the first get_cart_content record whose result decodes
to a JSON object wins even when it yields zero line items — the reconciler
returns the item-less snapshot of c1EmptyRec and ignores the later c1MilkRec,
which decodes to one line item; it does not fall back to the add_to_cart
textual summary either. -/
theorem C1_counterexample_itemless_snapshot_wins :
    extract_cart_from_tool_calls [c1AddRec, c1EmptyRec, c1MilkRec] =
      .snapshot c1EmptySnap ∧
    c1EmptySnap.items.length = 0 ∧
    getCartStep initTCState c1MilkRec = some (.inl (.snapshot c1MilkSnap)) ∧
    c1MilkSnap.items.length = 1 := by
  exact ⟨by with_unfolding_all rfl, rfl, by with_unfolding_all rfl, rfl⟩

/-- C2 counterexample: a malformed price string ("abc") in a decoded
get_cart_content payload is not replaced by the default 0 — float() raises,
the top-level handler returns the error dict, and the remaining records
(c1MilkRec here) are never processed. -/
theorem C2_counterexample_malformed_price_aborts :
    parseFloatChars (sl "abc") = none ∧
    extract_cart_from_tool_calls [c1AddRec, c2AbcRec, c1MilkRec] = .errDict := by
  exact ⟨rfl, by with_unfolding_all rfl⟩

/-- C3 counterexample: the JSON-array format succeeds on respC3 (one line
item, total 2), yet Format 3 still runs on the same captured text, appends a
second item and overrides total_price to 9.99 — the first pattern that yields
an item does not determine the result exclusively. -/
theorem C3_counterexample_later_format_contributes :
    extract_cart_from_agent_response respC3 = some (.inl c3result) ∧
    format0 c3text initCartData = some c3afterJson ∧
    c3afterJson.items.length = 1 ∧ c3result.items.length = 2 ∧
    c3afterJson.total_price = 2 ∧ c3result.total_price = 999 / 100 ∧
    (999 / 100 : ℚ) ≠ 2 := by
  refine ⟨by with_unfolding_all rfl, by with_unfolding_all rfl, rfl, rfl, rfl, rfl, ?_⟩
  norm_num

/-- C4 counterexample: on raw statistics whose cycle_count (3) differs from
the length of cycle_durations ([6]), the aggregator returns 6 — the sum
divided by the list length — not total_duration / cycle_count = 2 as the
claim states. -/
theorem C4_counterexample_wrong_denominator :
    (extract_metrics rawC4).average_cycle_time = 6 ∧
    rawC4.cycle_count = 3 ∧
    (extract_metrics rawC4).total_duration = 6 ∧
    (extract_metrics rawC4).average_cycle_time ≠
      (extract_metrics rawC4).total_duration / (rawC4.cycle_count : ℚ) := by
  have h1 : (extract_metrics rawC4).average_cycle_time = 6 := by with_unfolding_all rfl
  have h2 : (extract_metrics rawC4).total_duration = 6 := by with_unfolding_all rfl
  refine ⟨h1, rfl, h2, ?_⟩
  rw [h1, h2]
  norm_num [rawC4]

/-- C6 counterexample: a JSON-sourced price string "-5" passes float() and
produces a snapshot with a negative line-item price and a negative
total_price, violating the claimed invariant. -/
theorem C6_counterexample_negative_price :
    extract_cart_from_agent_response respC6 = some (.inl c6result) ∧
    c6result.total_price < 0 ∧
    c6result.items.map (fun it => it.price) = [(-5 : ℚ)] := by
  refine ⟨by with_unfolding_all rfl, ?_, rfl⟩
  show (-5 : ℚ) < 0
  norm_num

/-- C7: CSV generation does not fail only in the zero-run-files case — it
refuses on zero runs as claimed, and succeeds on a fully structured record,
but raises (AttributeError) on a run whose cart_data is the reconciler's
textual fallback string, and raises (KeyError) on a run whose metrics carry
only an error field, contradicting the claim for those non-empty collections. -/
theorem C7_csv_generation_crashes_on_degraded_records :
    generate_all_reports [] = .noRunData ∧
    isReports (generate_all_reports [goodRun]) = true ∧
    generate_all_reports [badCartRun] = .raised ∧
    detailedRow badCartRun = none ∧
    generate_all_reports [errMetricsRun] = .raised := by
  exact ⟨rfl, by with_unfolding_all rfl, by with_unfolding_all rfl,
    by with_unfolding_all rfl, by with_unfolding_all rfl⟩

/-- C8 counterexample: two distinct completion instants within the same
wall-clock second produce the same export file name, so the per-run file name
is not collision-free and the later export overwrites the earlier one. -/
theorem C8_counterexample_same_second_collision :
    exportFilename c8dt1 = exportFilename c8dt2 ∧ c8dt1 ≠ c8dt2 := by
  exact ⟨rfl, by decide⟩

/-- C10 counterexample: on a JSON-array cart block whose single item has
quantity 4 and unit price 1 but whose name contains the Format 3 triggers,
the returned snapshot has total_items 5 (not the quantity sum 4) and
total_price 7.77 (not the unit-price sum 1) — the later format interferes. -/
theorem C10_counterexample_interfered_json_totals :
    extract_cart_from_agent_response respC10x = some (.inl c10xresult) ∧
    format0 c10xtext initCartData = some c10xafterJson ∧
    c10xafterJson.total_items = PyVal.vnum 4 ∧
    c10xafterJson.total_price = 1 ∧
    c10xresult.total_items = PyVal.vnum 5 ∧
    c10xresult.total_price = 777 / 100 ∧
    (5 : ℚ) ≠ 4 ∧ (777 / 100 : ℚ) ≠ 1 := by
  refine ⟨by with_unfolding_all rfl, by with_unfolding_all rfl, rfl, rfl, rfl, rfl,
    by norm_num, by norm_num⟩

/-- The record loop distributes over list append (shared helper). -/
theorem foldCalls_append (pre rest : List ToolCall) :
    ∀ st, foldCalls st (pre ++ rest) =
      (match foldCalls st pre with
       | .inl st' => foldCalls st' rest
       | .inr r => .inr r) := by
  induction pre with
  | nil => intro st; rfl
  | cons c t ih =>
    intro st
    show foldCalls st (c :: (t ++ rest)) = _
    simp only [foldCalls]
    cases processCall st c with
    | cont st' => exact ih st'
    | ret r => rfl

/-- C1 amended: in Tier A the first get_cart_content record whose result
decodes to a JSON object determines the outcome — processCall returns its
converted snapshot (item-less or not) and all later records are ignored; when
no record returns early, the result is the finalize fallback chain (the last
stringified get_cart_content result, else the add_to_cart summary, else the
no-data marker). -/
theorem C1_amended_first_decoded_object_wins :
    (∀ pre c post st S, foldCalls initTCState pre = .inl st →
      processCall st c = .ret (.snapshot S) →
      extract_cart_from_tool_calls (pre ++ c :: post) = .snapshot S) ∧
    (∀ calls st, foldCalls initTCState calls = .inl st →
      extract_cart_from_tool_calls calls = finalizeTC st) := by
  constructor
  · intro pre c post st S hpre hc
    unfold extract_cart_from_tool_calls
    rw [foldCalls_append, hpre]
    simp only [foldCalls, hc]
  · intro calls st h
    unfold extract_cart_from_tool_calls
    rw [h]

/-- C1 witness: the amended theorem applied to the concrete record sequence —
the empty-object record wins immediately after the add_to_cart record. -/
theorem C1_amended_witness :
    extract_cart_from_tool_calls ([c1AddRec] ++ c1EmptyRec :: [c1MilkRec]) =
      .snapshot c1EmptySnap :=
  C1_amended_first_decoded_object_wins.1 [c1AddRec] c1EmptyRec [c1MilkRec]
    c1StateAfterAdd c1EmptySnap (by with_unfolding_all rfl)
    (by with_unfolding_all rfl)

/-- C2 amended: a malformed numeric string in a decoded get_cart_content
payload makes the conversion raise; the reconciler's top-level handler turns
this into the error dict — no exception escapes, but no default is
substituted and the remaining records are abandoned. processCall maps the
"abc"-priced record to the error-dict outcome from every loop state. -/
theorem C2_amended_parse_failure_yields_error_dict :
    (∀ pre c post st, foldCalls initTCState pre = .inl st →
      processCall st c = .ret .errDict →
      extract_cart_from_tool_calls (pre ++ c :: post) = .errDict) ∧
    (∀ st, processCall st c2AbcRec = .ret .errDict) := by
  constructor
  · intro pre c post st hpre hc
    unfold extract_cart_from_tool_calls
    rw [foldCalls_append, hpre]
    simp only [foldCalls, hc]
  · intro st
    with_unfolding_all rfl

/-- C2 witness: the amended theorem applied to the concrete record sequence
with the malformed "abc" price. -/
theorem C2_amended_witness :
    extract_cart_from_tool_calls ([c1AddRec] ++ c2AbcRec :: [c1MilkRec]) =
      .errDict :=
  C2_amended_parse_failure_yields_error_dict.1 [c1AddRec] c2AbcRec [c1MilkRec]
    c1StateAfterAdd (by with_unfolding_all rfl)
    (C2_amended_parse_failure_yields_error_dict.2 c1StateAfterAdd)

/-- C4 amended: average_cycle_time divides the duration sum by the length of
the cycle_durations list (0 when the list is empty) — which equals
total_duration / cycle_count exactly when cycle_count matches that length —
and every per-tool entry's success_rate and average_time are zero-guarded on
call_count. -/
theorem C4_amended_average_over_durations_length :
    (∀ m : RawMetrics, (extract_metrics m).average_cycle_time =
      if m.cycle_durations.isEmpty then 0
      else m.cycle_durations.sum / (m.cycle_durations.length : ℚ)) ∧
    (∀ m : RawMetrics, m.cycle_count = m.cycle_durations.length →
      (extract_metrics m).average_cycle_time =
        if 0 < m.cycle_count then
          (extract_metrics m).total_duration / (m.cycle_count : ℚ)
        else 0) ∧
    (∀ m name tmOut, (name, tmOut) ∈ (extract_metrics m).tool_metrics →
      ∃ raw, (name, raw) ∈ m.tool_metrics ∧
        tmOut.success_rate = (if 0 < raw.call_count then
          (raw.success_count : ℚ) / (raw.call_count : ℚ) else 0) ∧
        tmOut.average_time = (if 0 < raw.call_count then
          raw.total_time / (raw.call_count : ℚ) else 0)) := by
  refine ⟨fun m => rfl, ?_, ?_⟩
  · intro m h
    have h1 : (extract_metrics m).average_cycle_time =
        if m.cycle_durations.isEmpty then 0
        else m.cycle_durations.sum / (m.cycle_durations.length : ℚ) := rfl
    have h2 : (extract_metrics m).total_duration = m.cycle_durations.sum := rfl
    rw [h1, h2, h]
    cases hl : m.cycle_durations with
    | nil => simp
    | cons a t => simp
  · intro m name tmOut hmem
    have hm : (extract_metrics m).tool_metrics = m.tool_metrics.map (fun kv =>
      (kv.1,
        { call_count := kv.2.call_count, success_count := kv.2.success_count,
          error_count := kv.2.error_count,
          success_rate :=
            if 0 < kv.2.call_count then
              (kv.2.success_count : ℚ) / (kv.2.call_count : ℚ)
            else 0,
          total_time := kv.2.total_time,
          average_time :=
            if 0 < kv.2.call_count then kv.2.total_time / (kv.2.call_count : ℚ)
            else 0 : ToolMetricOut })) := rfl
    rw [hm, List.mem_map] at hmem
    obtain ⟨⟨n0, raw⟩, hraw, heq⟩ := hmem
    rw [Prod.mk.injEq] at heq
    obtain ⟨hn, htm⟩ := heq
    subst hn
    exact ⟨raw, hraw, by rw [← htm], by rw [← htm]⟩

/-- C4 witness: the amended formula applied to concrete raw statistics whose
cycle_count matches the durations list. -/
theorem C4_amended_witness :
    (extract_metrics rawC4w).average_cycle_time =
      if 0 < rawC4w.cycle_count then
        (extract_metrics rawC4w).total_duration / (rawC4w.cycle_count : ℚ)
      else 0 :=
  C4_amended_average_over_durations_length.2.1 rawC4w rfl

set_option maxRecDepth 4000 in
/-- Two-digit zero-padding is injective on in-range values. -/
theorem pad2_inj : ∀ a < 100, ∀ b < 100, pad2 a = pad2 b → a = b := by decide

/-- Four-digit padding splits into two two-digit paddings. -/
theorem pad4_eq_pad2 (n : Nat) : pad4 n = pad2 (n / 100) ++ pad2 (n % 100) := by
  have e1 : n / 1000 % 10 = n / 100 / 10 % 10 := by omega
  have e2 : n / 10 % 10 = n % 100 / 10 % 10 := by omega
  have e3 : n % 10 = n % 100 % 10 := by omega
  simp only [pad4, pad2, List.cons_append, List.nil_append]
  rw [e1, e2, e3]

/-- Four-digit zero-padding is injective on in-range values. -/
theorem pad4_inj : ∀ a < 10000, ∀ b < 10000, pad4 a = pad4 b → a = b := by
  intro a ha b hb h
  rw [pad4_eq_pad2, pad4_eq_pad2] at h
  obtain ⟨h1, h2⟩ := List.append_inj h rfl
  have e1 := pad2_inj (a / 100) (by omega) (b / 100) (by omega) h1
  have e2 := pad2_inj (a % 100) (by omega) (b % 100) (by omega) h2
  omega

/-- C8 amended: the export file name has second resolution, so it is not
collision-free within a second — any two completion instants in the same
wall-clock second get the same name (overwrite), and conversely two in-range
instants with the same name agree on all six formatted fields, so names are
distinct exactly across different seconds. -/
theorem C8_amended_second_resolution_names :
    (∀ d1 d2 : PyDateTime, SameSecond d1 d2 →
      exportFilename d1 = exportFilename d2) ∧
    (∀ d1 d2 : PyDateTime, ValidDT d1 → ValidDT d2 →
      exportFilename d1 = exportFilename d2 → SameSecond d1 d2) := by
  constructor
  · intro d1 d2 h
    obtain ⟨hy, hmo, hd, hh, hmi, hs⟩ := h
    unfold exportFilename formatTimestampName
    rw [hy, hmo, hd, hh, hmi, hs]
  · intro d1 d2 v1 v2 h
    obtain ⟨hy1, hmo1, hd1, hh1, hmi1, hs1⟩ := v1
    obtain ⟨hy2, hmo2, hd2, hh2, hmi2, hs2⟩ := v2
    unfold exportFilename at h
    have h' := List.append_cancel_right h
    have h'' := List.append_cancel_left h'
    unfold formatTimestampName at h''
    obtain ⟨h3, hs⟩ := List.append_inj' h'' rfl
    obtain ⟨h4, hmi⟩ := List.append_inj' h3 rfl
    obtain ⟨h5, hh⟩ := List.append_inj' h4 rfl
    obtain ⟨h6, _⟩ := List.append_inj' h5 rfl
    obtain ⟨h7, hd⟩ := List.append_inj' h6 rfl
    obtain ⟨hy, hmo⟩ := List.append_inj' h7 rfl
    exact ⟨pad4_inj _ hy1 _ hy2 hy, pad2_inj _ hmo1 _ hmo2 hmo,
      pad2_inj _ hd1 _ hd2 hd, pad2_inj _ hh1 _ hh2 hh,
      pad2_inj _ hmi1 _ hmi2 hmi, pad2_inj _ hs1 _ hs2 hs⟩

/-- C8 witness: the amended theorem applied to the two concrete instants in
the same second. -/
theorem C8_amended_witness : exportFilename c8dt1 = exportFilename c8dt2 :=
  C8_amended_second_resolution_names.1 c8dt1 c8dt2 ⟨rfl, rfl, rfl, rfl, rfl, rfl⟩


/-- No part rule of the summary-line parser touches the record's status. -/
theorem applyPart_status (tc : ToolCall) (ccl : List (List Char)) (icc : Bool)
    (p : List Char) : (applyPart tc ccl icc p).1.status = tc.status := by
  unfold applyPart
  by_cases h1 : startsWithL (sl "Tool: ") p = true
  · rw [if_pos h1]
  rw [if_neg h1]
  by_cases h2 : startsWithL (sl "Query: ") p = true
  · rw [if_pos h2]
  rw [if_neg h2]
  by_cases h3 : startsWithL (sl "Results: ") p = true
  · rw [if_pos h3]
  rw [if_neg h3]
  by_cases h4 : startsWithL (sl "Selected: ") p = true
  · rw [if_pos h4]
  rw [if_neg h4]
  by_cases h5 : startsWithL (sl "Price: ") p = true
  · rw [if_pos h5]
  rw [if_neg h5]
  by_cases h6 : startsWithL (sl "Categories: ") p = true
  · rw [if_pos h6]
  rw [if_neg h6]
  by_cases h7 : startsWithL (sl "Products: ") p = true
  · rw [if_pos h7]
  rw [if_neg h7]
  by_cases h8 : startsWithL (sl "Quantity: ") p = true
  · rw [if_pos h8]
  rw [if_neg h8]
  by_cases h9 : startsWithL (sl "Total Cost: ") p = true
  · rw [if_pos h9]
  rw [if_neg h9]
  by_cases h10 : startsWithL (sl "Total: ") p = true
  · rw [if_pos h10]
  rw [if_neg h10]
  by_cases h11 : startsWithL (sl "Result: ") p = true
  · rw [if_pos h11]
    by_cases h12 : pvEqStr tc.tool_name (sl "get_cart_content") = true
    · rw [if_pos h12]
    · rw [if_neg h12]
  · rw [if_neg h11]

/-- Folding the part rules over a line keeps the record's status. -/
theorem applyParts_status :
    ∀ parts tc ccl icc, (applyParts tc ccl icc parts).1.status = tc.status := by
  intro parts
  induction parts with
  | nil => intro tc ccl icc; rfl
  | cons p rest ih =>
    intro tc ccl icc
    rcases he : applyPart tc ccl icc p with ⟨tc', ccl', icc'⟩
    have h := applyPart_status tc ccl icc p
    rw [he] at h
    simp only [applyParts, he]
    rw [ih tc' ccl' icc']
    exact h

/-- One parser-loop step preserves the all-success status invariant. -/
theorem ptLine_inv (st : PTState) (line : List Char) (h : PTInv st) :
    PTInv (ptLine st line) := by
  obtain ⟨hacc, hcur⟩ := h
  have haccx : ∀ r, (∀ x ∈ st.acc, x.status = sl "success") →
      (∀ c, st.current = some c → c.status = sl "success") →
      r ∈ (match st.current with
        | some c => st.acc ++ [c]
        | none => st.acc) → r.status = sl "success" := by
    intro r ha hc hr
    rcases hcc : st.current with _ | c0
    · rw [hcc] at hr
      exact ha r hr
    · rw [hcc] at hr
      rcases List.mem_append.mp hr with h' | h'
      · exact ha r h'
      · rw [List.mem_singleton.mp h']
        exact hc c0 hcc
  simp only [ptLine]
  by_cases c1 : st.brk = true
  · rw [if_pos c1]
    exact ⟨hacc, hcur⟩
  rw [if_neg c1]
  by_cases c2 : hasSub (sl "TOOL_CALLS_SUMMARY:") line = true
  · rw [if_pos c2]
    exact ⟨hacc, hcur⟩
  rw [if_neg c2]
  by_cases c3 : (st.in_summary && startsWithL (sl "- Tool:") (pyStrip line)) = true
  · rw [if_pos c3]
    rcases he : applyParts initPTRecord st.cart_content_lines st.in_cart_content
        (splitOnSub (sl " | ") ((pyStrip line).drop 2)) with ⟨tc, ccl, icc⟩
    have hs := applyParts_status
      (splitOnSub (sl " | ") ((pyStrip line).drop 2)) initPTRecord
      st.cart_content_lines st.in_cart_content
    rw [he] at hs
    refine ⟨fun r hr => haccx r hacc hcur hr, fun c hc => ?_⟩
    cases hc
    exact hs
  rw [if_neg c3]
  by_cases c4 : (st.in_summary && st.in_cart_content && st.current.isSome) = true
  · rw [if_pos c4]
    by_cases c5 : (startsWithL (sl "  - Product:") (pyStrip line) ||
        startsWithL (sl "  - Total:") (pyStrip line)) = true
    · rw [if_pos c5]
      exact ⟨hacc, hcur⟩
    rw [if_neg c5]
    by_cases c6 : ((pyStrip line).isEmpty ||
        startsWithL (sl "- Tool:") (pyStrip line)) = true
    · rw [if_pos c6]
      refine ⟨hacc, fun c hc => ?_⟩
      by_cases c7 : (!st.cart_content_lines.isEmpty) = true
      · rw [if_pos c7] at hc
        obtain ⟨c0, hc0, hmap⟩ := Option.map_eq_some'.mp hc
        rw [← hmap]
        exact hcur c0 hc0
      · rw [if_neg c7] at hc
        exact hcur c hc
    · rw [if_neg c6]
      exact ⟨hacc, hcur⟩
  rw [if_neg c4]
  by_cases c8 : (st.in_summary && (pyStrip line).isEmpty) = true
  · rw [if_pos c8]
    exact ⟨fun r hr => haccx r hacc hcur hr, hcur⟩
  · rw [if_neg c8]
    exact ⟨hacc, hcur⟩

/-- The whole parser fold preserves the status invariant. -/
theorem foldl_ptLine_inv :
    ∀ (lines : List (List Char)) (st : PTState), PTInv st →
      PTInv (lines.foldl ptLine st) := by
  intro lines
  induction lines with
  | nil => intro st h; exact h
  | cons l rest ih =>
    intro st h
    exact ih _ (ptLine_inv st l h)

/-- Every record of the per-cycle fold comes from nativeRecord. -/
theorem mem_foldl_cycles :
    ∀ (cycles : List NativeCycle) (acc : List ToolCall) (tc : ToolCall),
      tc ∈ cycles.foldl (fun acc cyc =>
        if optListTruthy cyc.tool_calls then
          acc ++ (cyc.tool_calls.getD []).map nativeRecord
        else acc) acc →
      tc ∈ acc ∨ ∃ call, tc = nativeRecord call := by
  intro cycles
  induction cycles with
  | nil => intro acc tc h; exact .inl h
  | cons cyc rest ih =>
    intro acc tc h
    simp only [List.foldl_cons] at h
    rcases ih _ tc h with h' | h'
    · by_cases hc : optListTruthy cyc.tool_calls = true
      · rw [if_pos hc] at h'
        rcases List.mem_append.mp h' with h'' | h''
        · exact .inl h''
        · obtain ⟨call, _, hcall⟩ := List.mem_map.mp h''
          exact .inr ⟨call, hcall.symm⟩
      · rw [if_neg hc] at h'
        exact .inl h'
    · exact .inr h'

/-- A native record's status is determined by its (defaulted) result value. -/
theorem nativeRecord_status (call : NativeCall) :
    (nativeRecord call).status =
      match (nativeRecord call).result with
      | .vnone => sl "unknown"
      | _ => sl "success" := rfl

/-- C9: every record parsed from the transcript's TOOL_CALLS_SUMMARY section
has status "success", whether or not any result value was captured; records
decoded from the native structured history instead carry "unknown" exactly
when their (defaulted) result value is None. -/
theorem C9_summary_records_always_success :
    (∀ resp tc, tc ∈ parse_tool_calls_from_response resp →
      tc.status = sl "success") ∧
    (∀ res tc, tc ∈ extract_actual_tool_calls res →
      tc.status = match tc.result with
        | .vnone => sl "unknown"
        | _ => sl "success") := by
  constructor
  · intro resp tc hmem
    unfold parse_tool_calls_from_response at hmem
    split at hmem
    · have hinv := foldl_ptLine_inv (splitOnSub (sl "\n") resp) initPTState
        ⟨fun r hr => absurd hr (List.not_mem_nil r), fun c hc => by cases hc⟩
      rcases hc : (List.foldl ptLine initPTState (splitOnSub (sl "\n") resp)).current
          with _ | c
      · simp only [hc] at hmem
        exact hinv.1 tc hmem
      · simp only [hc] at hmem
        rcases List.mem_append.mp hmem with h' | h'
        · exact hinv.1 tc h'
        · rw [List.mem_singleton.mp h']
          exact hinv.2 c hc
    · cases hmem
  · intro res tc hmem
    unfold extract_actual_tool_calls at hmem
    split at hmem
    · rcases mem_foldl_cycles _ [] tc hmem with h' | ⟨call, hcall⟩
      · cases h'
      · rw [hcall]
        exact nativeRecord_status call
    · split at hmem
      · obtain ⟨call, _, hcall⟩ := List.mem_map.mp hmem
        rw [← hcall]
        exact nativeRecord_status call
      · split at hmem
        · split at hmem
          · obtain ⟨call, _, hcall⟩ := List.mem_map.mp hmem
            rw [← hcall]
            exact nativeRecord_status call
          · cases hmem
        · cases hmem

/-- C9 witness: the theorem applied to a concrete transcript producing one
record (status "success") and to a concrete native call without a result
value (status "unknown"). -/
theorem C9_summary_records_witness :
    c9Rec.status = sl "success" ∧
    (nativeRecord c9NativeCall).status = sl "unknown" := by
  constructor
  · apply C9_summary_records_always_success.1 respC9w
    have h : parse_tool_calls_from_response respC9w = [c9Rec] := by
      with_unfolding_all rfl
    rw [h]
    exact List.mem_cons_self _ _
  · have h : extract_actual_tool_calls c9NativeRes =
        [nativeRecord c9NativeCall] := by with_unfolding_all rfl
    exact C9_summary_records_always_success.2 c9NativeRes
      (nativeRecord c9NativeCall) (by rw [h]; exact List.mem_cons_self _ _)

theorem format0Items_sums :
    ∀ (elems : List PyVal) (cd cd' : CartData), format0Items elems cd = some cd' →
      ∃ (newItems : List CartItem) (qs : List ℚ),
        cd'.items = cd.items ++ newItems ∧
        newItems.map (fun it => pvToQ it.quantity) = qs.map some ∧
        (∀ a : ℚ, cd.total_items = PyVal.vnum a →
          cd'.total_items = PyVal.vnum (a + qs.sum)) ∧
        cd'.total_price = cd.total_price + (newItems.map (fun it => it.price)).sum := by
  intro elems
  induction elems with
  | nil =>
    intro cd cd' h
    simp only [format0Items, Option.some.injEq] at h
    subst h
    exact ⟨[], [], by simp, rfl, fun a ha => by simp [ha], by simp⟩
  | cons item rest ih =>
    intro cd cd' h
    simp only [format0Items, Option.bind_eq_bind, Option.bind_eq_some] at h
    obtain ⟨priceRaw, hpr, h⟩ := h
    cases priceRaw with
    | vstr s => ?_
    | vnum q => simp at h
    | vbool b => simp at h
    | vnone => simp at h
    | vlist xs => simp at h
    | vdict kvs => simp at h
    simp only [Option.some_bind, Option.bind_eq_some] at h
    obtain ⟨price, hprice, nm, hnm, qty, hqty, pid, hpid, ti, hti, hrec⟩ := h
    simp only [pyAdd] at hti
    rcases hx : pvToQ cd.total_items with _ | x <;> rw [hx] at hti
    · cases hti
    rcases hy : pvToQ qty with _ | y <;> rw [hy] at hti
    · cases hti
    rw [Option.some.injEq] at hti
    subst hti
    obtain ⟨newItems', qs', h1, h2, h3, h4⟩ := ih _ cd' hrec
    refine ⟨mkItem nm qty price (.vstr (sl "EUR")) (some pid) :: newItems',
      y :: qs', ?_, ?_, ?_, ?_⟩
    · rw [h1]
      simp [List.append_assoc]
    · simp only [List.map_cons, mkItem, hy, h2]
    · intro a ha
      rw [ha] at hx
      simp only [pvToQ, Option.some.injEq] at hx
      subst hx
      have h5 := h3 (a + y) rfl
      rw [h5, List.sum_cons]
      congr 1
      ring
    · rw [h4]
      simp only [List.map_cons, mkItem, List.sum_cons]
      ring

theorem map_itemQty_eq (l : List CartItem) :
    ∀ qs : List ℚ, l.map (fun it => pvToQ it.quantity) = qs.map some →
      l.map itemQty = qs := by
  induction l with
  | nil =>
    intro qs h
    cases qs with
    | nil => rfl
    | cons q qs => simp at h
  | cons it l ih =>
    intro qs h
    cases qs with
    | nil => simp at h
    | cons q qs =>
      simp only [List.map_cons, List.cons.injEq] at h ⊢
      exact ⟨by simp [itemQty, h.1], ih qs h.2⟩

theorem sum_le_weighted (l : List CartItem)
    (hall : ∀ it ∈ l, 1 ≤ itemQty it ∧ 0 ≤ it.price) :
    (l.map (fun it => it.price)).sum ≤ (l.map itemWeighted).sum := by
  induction l with
  | nil => simp
  | cons it l ih =>
    simp only [List.map_cons, List.sum_cons]
    have h1 := hall it (List.mem_cons_self it l)
    have h2 : it.price ≤ itemWeighted it := by
      rw [itemWeighted]
      exact le_mul_of_one_le_left h1.2 h1.1
    have h3 := ih (fun x hx => hall x (List.mem_cons_of_mem it hx))
    exact add_le_add h2 h3

theorem sum_lt_weighted (l : List CartItem)
    (hall : ∀ it ∈ l, 1 ≤ itemQty it ∧ 0 ≤ it.price)
    (hex : ∃ it ∈ l, 1 < itemQty it ∧ 0 < it.price) :
    (l.map (fun it => it.price)).sum < (l.map itemWeighted).sum := by
  induction l with
  | nil =>
    obtain ⟨it, hmem, _⟩ := hex
    cases hmem
  | cons it l ih =>
    simp only [List.map_cons, List.sum_cons]
    obtain ⟨w, hw, hw1, hw2⟩ := hex
    rcases List.mem_cons.mp hw with heq | hmem
    · subst heq
      have h2 : w.price < itemWeighted w := by
        rw [itemWeighted]
        exact lt_mul_of_one_lt_left hw2 hw1
      have h3 := sum_le_weighted l (fun x hx => hall x (List.mem_cons_of_mem w hx))
      exact add_lt_add_of_lt_of_le h2 h3
    · have h1 := hall it (List.mem_cons_self it l)
      have h2 : it.price ≤ itemWeighted it := by
        rw [itemWeighted]
        exact le_mul_of_one_le_left h1.2 h1.1
      have h3 := ih (fun x hx => hall x (List.mem_cons_of_mem it hx)) ⟨w, hmem, hw1, hw2⟩
      exact add_lt_add_of_le_of_lt h2 h3

/-- C10 (amended): for the JSON-array stage itself — the Format 0 per-item loop
run from the initial empty cart — the returned snapshot's total_items is the sum
of the items' quantity fields and its total_price is the sum of the items' unit
prices with quantity not multiplied in; consequently, whenever every quantity is
at least 1 and every price nonnegative and some item has quantity above 1 with a
positive price, total_price is strictly below the quantity-weighted sum of the
line items. (The original end-to-end claim over every JSON-array cart block
fails because the later format patterns can run on the same text and add items;
see the counterexample.) -/
theorem C10_amended (elems : List PyVal) (cd' : CartData)
    (h : format0Items elems initCartData = some cd') :
    cd'.total_items = PyVal.vnum ((cd'.items.map itemQty).sum) ∧
    cd'.total_price = (cd'.items.map (fun it => it.price)).sum ∧
    ((∀ it ∈ cd'.items, 1 ≤ itemQty it ∧ 0 ≤ it.price) →
      (∃ it ∈ cd'.items, 1 < itemQty it ∧ 0 < it.price) →
      cd'.total_price < (cd'.items.map itemWeighted).sum) := by
  obtain ⟨newItems, qs, h1, h2, h3, h4⟩ := format0Items_sums elems initCartData cd' h
  have hi : cd'.items = newItems := by
    rw [h1]
    rfl
  have hq : cd'.items.map itemQty = qs := by
    rw [hi]
    exact map_itemQty_eq newItems qs h2
  have g2 : cd'.total_price = (cd'.items.map (fun it => it.price)).sum := by
    rw [h4, hi]
    simp [initCartData]
  refine ⟨?_, g2, ?_⟩
  · have h5 := h3 0 rfl
    rw [h5, hq]
    congr 1
    ring
  · intro hall hex
    rw [g2]
    exact sum_lt_weighted cd'.items hall hex

/-- C10 amended witness. -/
theorem C10_amended_witness :
    c10wCd.total_items = PyVal.vnum ((c10wCd.items.map itemQty).sum) ∧
    c10wCd.total_price = (c10wCd.items.map (fun it => it.price)).sum ∧
    ((∀ it ∈ c10wCd.items, 1 ≤ itemQty it ∧ 0 ≤ it.price) →
      (∃ it ∈ c10wCd.items, 1 < itemQty it ∧ 0 < it.price) →
      c10wCd.total_price < (c10wCd.items.map itemWeighted).sum) :=
  C10_amended c10wElems c10wCd (by with_unfolding_all rfl)

theorem extends_trans_items {cd cdm cd' : CartData} (e0 : List CartItem)
    (hm : cdm.items = cd.items ++ e0)
    (h : ∃ e, cd'.items = cdm.items ++ e) : ∃ e, cd'.items = cd.items ++ e := by
  obtain ⟨e, he⟩ := h
  exact ⟨e0 ++ e, by rw [he, hm, List.append_assoc]⟩

theorem format1Lines_extends :
    ∀ (ls : List (List Char)) (cd cd' : CartData),
      format1Lines ls cd = some cd' → ∃ extra, cd'.items = cd.items ++ extra := by
  intro ls
  induction ls with
  | nil =>
    intro cd cd' h
    simp only [format1Lines, Option.some.injEq] at h
    subst h
    exact ⟨[], by simp⟩
  | cons line rest ih =>
    intro cd cd' h
    simp only [format1Lines] at h
    split at h
    · split at h
      · simp only [Option.bind_eq_bind, Option.bind_eq_some] at h
        obtain ⟨price, hp, hrec⟩ := h
        exact extends_trans_items _ rfl (ih _ cd' hrec)
      · exact ih cd cd' h
    · exact ih cd cd' h

theorem format2Parts_extends :
    ∀ (ls : List (List Char)) (cd cd' : CartData),
      format2Parts ls cd = some cd' → ∃ extra, cd'.items = cd.items ++ extra := by
  intro ls
  induction ls with
  | nil =>
    intro cd cd' h
    simp only [format2Parts, Option.some.injEq] at h
    subst h
    exact ⟨[], by simp⟩
  | cons part rest ih =>
    intro cd cd' h
    simp only [format2Parts] at h
    split at h
    · simp only [Option.bind_eq_bind, Option.bind_eq_some] at h
      obtain ⟨price, hp, hrec⟩ := h
      exact extends_trans_items _ rfl (ih _ cd' hrec)
    · exact ih cd cd' h

theorem format3Parts_extends :
    ∀ (ls : List (List Char)) (cd cd' : CartData),
      format3Parts ls cd = some cd' → ∃ extra, cd'.items = cd.items ++ extra := by
  intro ls
  induction ls with
  | nil =>
    intro cd cd' h
    simp only [format3Parts, Option.some.injEq] at h
    subst h
    exact ⟨[], by simp⟩
  | cons part rest ih =>
    intro cd cd' h
    simp only [format3Parts] at h
    split at h
    · simp only [Option.bind_eq_bind, Option.bind_eq_some] at h
      obtain ⟨price, hp, ti, hti, hrec⟩ := h
      exact extends_trans_items _ rfl (ih _ cd' hrec)
    · exact ih cd cd' h

theorem format5Lines_extends :
    ∀ (ls : List (List Char)) (cd cd' : CartData),
      format5Lines ls cd = some cd' → ∃ extra, cd'.items = cd.items ++ extra := by
  intro ls
  induction ls with
  | nil =>
    intro cd cd' h
    simp only [format5Lines, Option.some.injEq] at h
    subst h
    exact ⟨[], by simp⟩
  | cons line rest ih =>
    intro cd cd' h
    simp only [format5Lines] at h
    split at h
    · split at h
      · simp only [Option.bind_eq_bind, Option.bind_eq_some] at h
        obtain ⟨price, hp, ti, hti, hrec⟩ := h
        exact extends_trans_items _ rfl (ih _ cd' hrec)
      · exact ih cd cd' h
    · split at h
      · split at h
        · simp only [Option.bind_eq_bind, Option.bind_eq_some] at h
          obtain ⟨price, hp, ti, hti, hrec⟩ := h
          exact extends_trans_items _ rfl (ih _ cd' hrec)
        · exact ih cd cd' h
      · split at h
        · split at h
          · simp only [Option.bind_eq_bind, Option.bind_eq_some] at h
            obtain ⟨q, hq, hrec⟩ := h
            obtain ⟨e, he⟩ := ih _ cd' hrec
            exact ⟨e, by rw [he]⟩
          · exact ih cd cd' h
        · exact ih cd cd' h

theorem format1_extends (t : List Char) (cd0 cd' : CartData)
    (h : format1 t cd0 = some cd') : ∃ extra, cd'.items = cd0.items ++ extra := by
  simp only [format1] at h
  split at h
  · simp only [Option.pure_def, Option.bind_eq_bind, Option.some_bind,
      Option.bind_eq_some] at h
    obtain ⟨q, hq, h⟩ := h
    obtain ⟨e, he⟩ := format1Lines_extends _ _ _ h
    refine ⟨e, ?_⟩
    rw [he]
    congr 1
    split
    · rfl
    · rfl
  · simp only [Option.pure_def, Option.some_bind] at h
    obtain ⟨e, he⟩ := format1Lines_extends _ _ _ h
    refine ⟨e, ?_⟩
    rw [he]
    congr 1
    split
    · rfl
    · rfl

theorem format2_extends (t : List Char) (cd0 cd' : CartData)
    (h : format2 t cd0 = some cd') : ∃ extra, cd'.items = cd0.items ++ extra := by
  simp only [format2] at h
  split at h
  · simp only [Option.pure_def, Option.bind_eq_bind, Option.some_bind,
      Option.bind_eq_some] at h
    obtain ⟨q, hq, h⟩ := h
    split at h
    · obtain ⟨e, he⟩ := format2Parts_extends _ _ _ h
      refine ⟨e, ?_⟩
      rw [he]
      congr 1
      split
      · rfl
      · rfl
    · rw [Option.some.injEq] at h
      subst h
      refine ⟨[], ?_⟩
      rw [List.append_nil]
      split
      · rfl
      · rfl
  · simp only [Option.pure_def, Option.bind_eq_bind, Option.some_bind] at h
    split at h
    · obtain ⟨e, he⟩ := format2Parts_extends _ _ _ h
      refine ⟨e, ?_⟩
      rw [he]
      congr 1
      split
      · rfl
      · rfl
    · rw [Option.some.injEq] at h
      subst h
      refine ⟨[], ?_⟩
      rw [List.append_nil]
      split
      · rfl
      · rfl

theorem format3_extends (t : List Char) (cd0 cd' : CartData)
    (h : format3 t cd0 = some cd') : ∃ extra, cd'.items = cd0.items ++ extra := by
  simp only [format3] at h
  split at h
  · simp only [Option.pure_def, Option.bind_eq_bind, Option.some_bind,
      Option.bind_eq_some] at h
    obtain ⟨q, hq, h⟩ := h
    split at h
    · obtain ⟨e, he⟩ := format3Parts_extends _ _ _ h
      exact ⟨e, by rw [he]⟩
    · rw [Option.some.injEq] at h
      subst h
      exact ⟨[], by simp⟩
  · simp only [Option.pure_def, Option.bind_eq_bind, Option.some_bind] at h
    split at h
    · obtain ⟨e, he⟩ := format3Parts_extends _ _ _ h
      exact ⟨e, by rw [he]⟩
    · rw [Option.some.injEq] at h
      subst h
      exact ⟨[], by simp⟩

theorem format4_extends (t : List Char) (cd0 cd' : CartData)
    (h : format4 t cd0 = some cd') : ∃ extra, cd'.items = cd0.items ++ extra := by
  simp only [format4] at h
  split at h
  · split at h
    · simp only [Option.pure_def, Option.bind_eq_bind, Option.bind_eq_some,
        Option.some.injEq] at h
      obtain ⟨price, hp, h⟩ := h
      subst h
      exact ⟨_, rfl⟩
    · rw [Option.pure_def, Option.some.injEq] at h
      subst h
      exact ⟨[], by simp⟩
  · rw [Option.pure_def, Option.some.injEq] at h
    subst h
    exact ⟨[], by simp⟩

theorem format5_extends (t : List Char) (cd0 cd' : CartData)
    (h : format5 t cd0 = some cd') : ∃ extra, cd'.items = cd0.items ++ extra :=
  format5Lines_extends _ _ _ h

theorem formats1to5_extends (t : List Char) (cd0 cd' : CartData)
    (h : formats1to5 t cd0 = some cd') : ∃ extra, cd'.items = cd0.items ++ extra := by
  simp only [formats1to5] at h
  split at h
  · exact format1_extends t cd0 cd' h
  · split at h
    · exact format2_extends t cd0 cd' h
    · split at h
      · exact format3_extends t cd0 cd' h
      · split at h
        · exact format4_extends t cd0 cd' h
        · exact format5_extends t cd0 cd' h

/-- C3 (amended): the transcript formats are not dispatched by "first pattern
that yields an item". Format 0 (the JSON-array branch) runs first as its own if
statement, and then exactly one of Formats 1-5 runs on the SAME text, chosen by
the first true substring guard in order (guard1 .. guard4, else Format 5) —
regardless of whether that format yields any item. Every format only appends
line items, so the chosen Format 1-5 extends (rather than replaces) whatever
Format 0 produced, and the final snapshot's item list is Format 0's item list
followed by the extra items of the single guard-selected format. -/
theorem C3_amended (t : List Char) (cd : CartData) :
    (∀ cd', formats1to5 t cd = some cd' → ∃ extra, cd'.items = cd.items ++ extra) ∧
    (guard1 t = true → formats1to5 t cd = format1 t cd) ∧
    (guard1 t = false → guard2 t = true → formats1to5 t cd = format2 t cd) ∧
    (guard1 t = false → guard2 t = false → guard3 t = true →
      formats1to5 t cd = format3 t cd) ∧
    (guard1 t = false → guard2 t = false → guard3 t = false → guard4 t = true →
      formats1to5 t cd = format4 t cd) ∧
    (guard1 t = false → guard2 t = false → guard3 t = false → guard4 t = false →
      formats1to5 t cd = format5 t cd) ∧
    (∀ res, parseCartText t = some res →
      ∃ cd0 cd1, format0 t initCartData = some cd0 ∧ formats1to5 t cd0 = some cd1 ∧
        (∃ extra, cd1.items = cd0.items ++ extra) ∧
        res = (if cd1.items.isEmpty then Sum.inr t else Sum.inl cd1)) := by
  refine ⟨fun cd' h => formats1to5_extends t cd cd' h, ?_, ?_, ?_, ?_, ?_, ?_⟩
  · intro h1
    simp only [formats1to5, h1, if_true]
  · intro h1 h2
    simp only [formats1to5, h1, h2, Bool.false_eq_true, if_false, if_true]
  · intro h1 h2 h3
    simp only [formats1to5, h1, h2, h3, Bool.false_eq_true, if_false, if_true]
  · intro h1 h2 h3 h4
    simp only [formats1to5, h1, h2, h3, h4, Bool.false_eq_true, if_false, if_true]
  · intro h1 h2 h3 h4
    simp only [formats1to5, h1, h2, h3, h4, Bool.false_eq_true, if_false]
  · intro res hres
    simp only [parseCartText, Option.bind_eq_bind, Option.bind_eq_some] at hres
    obtain ⟨cd0, h0, cd1, h1, hres⟩ := hres
    refine ⟨cd0, cd1, h0, h1, formats1to5_extends t cd0 cd1 h1, ?_⟩
    split at hres
    · simp only [Option.pure_def, Option.some.injEq] at hres
      subst hres
      rw [if_pos]
      assumption
    · simp only [Option.pure_def, Option.some.injEq] at hres
      subst hres
      rw [if_neg]
      assumption

/-- C3 amended witness. -/
theorem C3_amended_witness :
    formats1to5 c3text c3afterJson = format3 c3text c3afterJson ∧
    (∃ cd0 cd1, format0 c3text initCartData = some cd0 ∧
      formats1to5 c3text cd0 = some cd1 ∧
      (∃ extra, cd1.items = cd0.items ++ extra) ∧
      (Sum.inl c3result : CartData ⊕ List Char) =
        (if cd1.items.isEmpty then Sum.inr c3text else Sum.inl cd1)) :=
  ⟨(C3_amended c3text c3afterJson).2.2.2.1 (by with_unfolding_all rfl)
      (by with_unfolding_all rfl) (by with_unfolding_all rfl),
    (C3_amended c3text c3afterJson).2.2.2.2.2.2 (Sum.inl c3result)
      (by with_unfolding_all rfl)⟩

theorem mem_take_takeWhile {f : Char → Bool} {cs : List Char} {n : Nat}
    (hn : n ≤ (cs.takeWhile f).length) {c : Char} (hc : c ∈ cs.take n) :
    f c = true := by
  obtain ⟨rest, hrest⟩ := List.takeWhile_prefix f (l := cs)
  rw [← hrest, List.take_append_of_le_length hn] at hc
  exact List.mem_takeWhile_imp (List.mem_of_mem_take hc)

theorem tryDesc_caps (cont : List Char → Option (List (List Char)))
    (cs : List Char) (az : Bool) (f : Char → Bool)
    (P : List (List Char) → Prop)
    (hcont : ∀ cs' caps', cont cs' = some caps' → P caps') :
    ∀ k, k ≤ (cs.takeWhile f).length →
      ∀ caps, tryDesc cont cs az k = some caps →
        ∃ g caps', caps = g :: caps' ∧ (∀ c ∈ g, f c = true) ∧ P caps' := by
  intro k
  induction k with
  | zero =>
    intro hk caps h
    simp only [tryDesc] at h
    split at h
    · split at h
      · rw [Option.some.injEq] at h
        subst h
        exact ⟨[], _, rfl, by simp, hcont _ _ (by assumption)⟩
      · cases h
    · cases h
  | succ k ih =>
    intro hk caps h
    simp only [tryDesc] at h
    split at h
    · rw [Option.some.injEq] at h
      subst h
      refine ⟨cs.take (k + 1), _, rfl, ?_, hcont _ _ (by assumption)⟩
      intro c hc
      exact mem_take_takeWhile hk hc
    · exact ih (Nat.le_of_succ_le hk) caps h

theorem tryAsc_caps (cont : List Char → Option (List (List Char)))
    (cs : List Char) (f : Char → Bool)
    (P : List (List Char) → Prop)
    (hcont : ∀ cs' caps', cont cs' = some caps' → P caps') :
    ∀ r k, k + r ≤ (cs.takeWhile f).length →
      ∀ caps, tryAsc cont cs k r = some caps →
        ∃ g caps', caps = g :: caps' ∧ (∀ c ∈ g, f c = true) ∧ P caps' := by
  intro r
  induction r with
  | zero =>
    intro k hk caps h
    simp only [tryAsc] at h
    split at h
    · rw [Option.some.injEq] at h
      subst h
      refine ⟨cs.take k, _, rfl, ?_, hcont _ _ (by assumption)⟩
      intro c hc
      exact mem_take_takeWhile (by omega) hc
    · cases h
  | succ r ih =>
    intro k hk caps h
    simp only [tryAsc] at h
    split at h
    · rw [Option.some.injEq] at h
      subst h
      refine ⟨cs.take k, _, rfl, ?_, hcont _ _ (by assumption)⟩
      intro c hc
      exact mem_take_takeWhile (by omega) hc
    · exact ih (k + 1) (by omega) caps h

theorem matchItems_caps :
    ∀ (its : List RItem) (cs : List Char) (caps : List (List Char)),
      matchItems its cs = some caps →
      List.Forall₂ (fun f g => ∀ c ∈ g, f c = true) (clsOfItems its) caps := by
  intro its
  induction its with
  | nil =>
    intro cs caps h
    simp only [matchItems, Option.some.injEq] at h
    subst h
    exact List.Forall₂.nil
  | cons it rest ih =>
    intro cs caps h
    cases it with
    | lit s =>
      simp only [matchItems] at h
      split at h
      · exact ih _ _ h
      · cases h
    | plusCls f =>
      simp only [matchItems] at h
      obtain ⟨g, caps', hcaps, hg, hP⟩ :=
        tryDesc_caps (matchItems rest) cs false f
          (List.Forall₂ (fun f g => ∀ c ∈ g, f c = true) (clsOfItems rest))
          (fun cs' caps' h' => ih cs' caps' h') _ le_rfl caps h
      subst hcaps
      exact List.Forall₂.cons hg hP
    | starCls f =>
      simp only [matchItems] at h
      obtain ⟨g, caps', hcaps, hg, hP⟩ :=
        tryDesc_caps (matchItems rest) cs true f
          (List.Forall₂ (fun f g => ∀ c ∈ g, f c = true) (clsOfItems rest))
          (fun cs' caps' h' => ih cs' caps' h') _ le_rfl caps h
      subst hcaps
      exact List.Forall₂.cons hg hP
    | lazyStar f =>
      simp only [matchItems] at h
      obtain ⟨g, caps', hcaps, hg, hP⟩ :=
        tryAsc_caps (matchItems rest) cs f
          (List.Forall₂ (fun f g => ∀ c ∈ g, f c = true) (clsOfItems rest))
          (fun cs' caps' h' => ih cs' caps' h') _ 0 (by omega) caps h
      subst hcaps
      exact List.Forall₂.cons hg hP

theorem reSearch_caps :
    ∀ (cs : List Char) (its : List RItem) (caps : List (List Char)),
      reSearch its cs = some caps →
      List.Forall₂ (fun f g => ∀ c ∈ g, f c = true) (clsOfItems its) caps := by
  intro cs
  induction cs with
  | nil =>
    intro its caps h
    simp only [reSearch] at h
    exact matchItems_caps its [] caps h
  | cons c t ih =>
    intro its caps h
    simp only [reSearch] at h
    split at h
    · rw [Option.some.injEq] at h
      subst h
      exact matchItems_caps _ _ _ (by assumption)
    · exact ih its caps h

theorem reSearch_first_cls (p : List RItem) {f1 : Char → Bool}
    {l g1 : List Char} {tail : List (List Char)}
    (hcls : clsOfItems p = [f1])
    (h : reSearch p l = some (g1 :: tail)) : ∀ c ∈ g1, f1 c = true := by
  have h2 := reSearch_caps l p _ h
  rw [hcls] at h2
  rcases h2 with _ | ⟨hp, h2⟩
  exact hp

theorem reSearch_second_cls (p : List RItem) {f1 f2 : Char → Bool}
    {l g1 g2 : List Char} {tail : List (List Char)}
    (hcls : clsOfItems p = [f1, f2])
    (h : reSearch p l = some (g1 :: g2 :: tail)) : ∀ c ∈ g2, f2 c = true := by
  have h2 := reSearch_caps l p _ h
  rw [hcls] at h2
  rcases h2 with _ | ⟨h1, h2⟩
  rcases h2 with _ | ⟨hp, h2⟩
  exact hp

theorem reSearch_third_cls (p : List RItem) {f1 f2 f3 : Char → Bool}
    {l g1 g2 g3 : List Char} {tail : List (List Char)}
    (hcls : clsOfItems p = [f1, f2, f3])
    (h : reSearch p l = some (g1 :: g2 :: g3 :: tail)) : ∀ c ∈ g3, f3 c = true := by
  have h2 := reSearch_caps l p _ h
  rw [hcls] at h2
  rcases h2 with _ | ⟨h1, h2⟩
  rcases h2 with _ | ⟨hmid, h2⟩
  rcases h2 with _ | ⟨hp, h2⟩
  exact hp

theorem mem_pyStrip {c : Char} {cs : List Char} (h : c ∈ pyStrip cs) : c ∈ cs := by
  simp only [pyStrip, List.mem_reverse] at h
  exact (List.dropWhile_sublist pyIsSpace).subset
    (List.mem_reverse.mp ((List.dropWhile_sublist pyIsSpace).subset h))

theorem no_minus_head {cs : List Char}
    (hstrip : ∀ c ∈ pyStrip cs, isDigitDot c = true)
    {t : List Char} (heq : pyStrip cs = '-' :: t) : False := by
  have h2 := hstrip '-' (by rw [heq]; exact List.mem_cons_self _ _)
  exact absurd h2 (by decide)

theorem parseFloatChars_nonneg (cs : List Char)
    (hcs : ∀ c ∈ cs, isDigitDot c = true) :
    ∀ q, parseFloatChars cs = some q → 0 ≤ q := by
  have hstrip : ∀ c ∈ pyStrip cs, isDigitDot c = true := fun c hc => hcs c (mem_pyStrip hc)
  intro q h
  simp only [parseFloatChars] at h
  repeat' split at h
  all_goals cases h
  all_goals try positivity
  all_goals (exact absurd (by assumption) (fun heq => no_minus_head hstrip heq))

theorem format1Lines_inv :
    ∀ (ls : List (List Char)) (cd cd' : CartData), CartInv cd →
      format1Lines ls cd = some cd' → CartInv cd' := by
  intro ls
  induction ls with
  | nil =>
    intro cd cd' hinv h
    simp only [format1Lines, Option.some.injEq] at h
    subst h
    exact hinv
  | cons line rest ih =>
    intro cd cd' hinv h
    simp only [format1Lines] at h
    split at h
    · split at h
      · simp only [Option.bind_eq_bind, Option.bind_eq_some] at h
        obtain ⟨price, hp, hrec⟩ := h
        have hpn : 0 ≤ price := parseFloatChars_nonneg _
          (reSearch_second_cls reItemLine1 rfl (by assumption)) price hp
        obtain ⟨⟨a, ha, ha0⟩, htp, hit⟩ := hinv
        refine ih _ cd' ?_ hrec
        refine ⟨⟨a, ha, ha0⟩, htp, ?_⟩
        intro it hit2
        rcases List.mem_append.mp hit2 with hmem | hmem
        · exact hit it hmem
        · rw [List.mem_singleton] at hmem
          subst hmem
          exact hpn
      · exact ih cd cd' hinv h
    · exact ih cd cd' hinv h

theorem format2Parts_inv :
    ∀ (ls : List (List Char)) (cd cd' : CartData), CartInv cd →
      format2Parts ls cd = some cd' → CartInv cd' := by
  intro ls
  induction ls with
  | nil =>
    intro cd cd' hinv h
    simp only [format2Parts, Option.some.injEq] at h
    subst h
    exact hinv
  | cons part rest ih =>
    intro cd cd' hinv h
    simp only [format2Parts] at h
    split at h
    · simp only [Option.bind_eq_bind, Option.bind_eq_some] at h
      obtain ⟨price, hp, hrec⟩ := h
      have hpn : 0 ≤ price := parseFloatChars_nonneg _
        (reSearch_second_cls reInlineItem rfl (by assumption)) price hp
      obtain ⟨⟨a, ha, ha0⟩, htp, hit⟩ := hinv
      refine ih _ cd' ?_ hrec
      refine ⟨⟨a, ha, ha0⟩, htp, ?_⟩
      intro it hit2
      rcases List.mem_append.mp hit2 with hmem | hmem
      · exact hit it hmem
      · rw [List.mem_singleton] at hmem
        subst hmem
        exact hpn
    · exact ih cd cd' hinv h

theorem format3Parts_inv :
    ∀ (ls : List (List Char)) (cd cd' : CartData), CartInv cd →
      format3Parts ls cd = some cd' → CartInv cd' := by
  intro ls
  induction ls with
  | nil =>
    intro cd cd' hinv h
    simp only [format3Parts, Option.some.injEq] at h
    subst h
    exact hinv
  | cons part rest ih =>
    intro cd cd' hinv h
    simp only [format3Parts] at h
    split at h
    · simp only [Option.bind_eq_bind, Option.bind_eq_some] at h
      obtain ⟨price, hp, ti, hti, hrec⟩ := h
      have hpn : 0 ≤ price := parseFloatChars_nonneg _
        (reSearch_second_cls reColonItem rfl (by assumption)) price hp
      obtain ⟨⟨a, ha, ha0⟩, htp, hit⟩ := hinv
      rw [ha] at hti
      simp only [pyAdd, pvToQ] at hti
      rw [Option.some.injEq] at hti
      subst hti
      refine ih _ cd' ?_ hrec
      refine ⟨⟨a + 1, rfl, by linarith⟩, htp, ?_⟩
      intro it hit2
      rcases List.mem_append.mp hit2 with hmem | hmem
      · exact hit it hmem
      · rw [List.mem_singleton] at hmem
        subst hmem
        exact hpn
    · exact ih cd cd' hinv h

theorem format5Lines_inv :
    ∀ (ls : List (List Char)) (cd cd' : CartData), CartInv cd →
      format5Lines ls cd = some cd' → CartInv cd' := by
  intro ls
  induction ls with
  | nil =>
    intro cd cd' hinv h
    simp only [format5Lines, Option.some.injEq] at h
    subst h
    exact hinv
  | cons line rest ih =>
    intro cd cd' hinv h
    simp only [format5Lines] at h
    split at h
    · split at h
      · simp only [Option.bind_eq_bind, Option.bind_eq_some] at h
        obtain ⟨price, hp, ti, hti, hrec⟩ := h
        have hpn : 0 ≤ price := parseFloatChars_nonneg _
          (reSearch_second_cls reDashItem rfl (by assumption)) price hp
        obtain ⟨⟨a, ha, ha0⟩, htp, hit⟩ := hinv
        rw [ha] at hti
        simp only [pyAdd, pvToQ] at hti
        rw [Option.some.injEq] at hti
        subst hti
        refine ih _ cd' ?_ hrec
        refine ⟨⟨a + 1, rfl, by linarith⟩, by positivity, ?_⟩
        intro it hit2
        rcases List.mem_append.mp hit2 with hmem | hmem
        · exact hit it hmem
        · rw [List.mem_singleton] at hmem
          subst hmem
          exact hpn
      · exact ih cd cd' hinv h
    · split at h
      · split at h
        · simp only [Option.bind_eq_bind, Option.bind_eq_some] at h
          obtain ⟨price, hp, ti, hti, hrec⟩ := h
          have hpn : 0 ≤ price := parseFloatChars_nonneg _
            (reSearch_third_cls reProductLine rfl (by assumption)) price hp
          obtain ⟨⟨a, ha, ha0⟩, htp, hit⟩ := hinv
          rw [ha] at hti
          simp only [pyAdd, pvToQ] at hti
          rw [Option.some.injEq] at hti
          subst hti
          refine ih _ cd' ?_ hrec
          refine ⟨⟨a + _, rfl, by positivity⟩, by positivity, ?_⟩
          intro it hit2
          rcases List.mem_append.mp hit2 with hmem | hmem
          · exact hit it hmem
          · rw [List.mem_singleton] at hmem
            subst hmem
            exact hpn
        · exact ih cd cd' hinv h
      · split at h
        · split at h
          · simp only [Option.bind_eq_bind, Option.bind_eq_some] at h
            obtain ⟨q, hq, hrec⟩ := h
            have hqn : 0 ≤ q := parseFloatChars_nonneg _
              (reSearch_first_cls reTotal rfl (by assumption)) q hq
            obtain ⟨⟨a, ha, ha0⟩, htp, hit⟩ := hinv
            refine ih _ cd' ?_ hrec
            exact ⟨⟨a, ha, ha0⟩, hqn, hit⟩
          · exact ih cd cd' hinv h
        · exact ih cd cd' hinv h

theorem format1_inv (t : List Char) (cd0 cd' : CartData) (hinv : CartInv cd0)
    (h : format1 t cd0 = some cd') : CartInv cd' := by
  simp only [format1] at h
  split at h
  · simp only [Option.pure_def, Option.bind_eq_bind, Option.some_bind,
      Option.bind_eq_some] at h
    obtain ⟨q, hq, h⟩ := h
    have hq0 : 0 ≤ q := parseFloatChars_nonneg _
      (reSearch_first_cls reTotalPrice rfl (by assumption)) q hq
    refine format1Lines_inv _ _ _ ?_ h
    obtain ⟨⟨a, ha, ha0⟩, htp, hit⟩ := hinv
    split
    · exact ⟨⟨_, rfl, Nat.cast_nonneg _⟩, hq0, hit⟩
    · exact ⟨⟨a, ha, ha0⟩, hq0, hit⟩
  · simp only [Option.pure_def, Option.bind_eq_bind, Option.some_bind] at h
    refine format1Lines_inv _ _ _ ?_ h
    obtain ⟨⟨a, ha, ha0⟩, htp, hit⟩ := hinv
    split
    · exact ⟨⟨_, rfl, Nat.cast_nonneg _⟩, htp, hit⟩
    · exact ⟨⟨a, ha, ha0⟩, htp, hit⟩

theorem format2_inv (t : List Char) (cd0 cd' : CartData) (hinv : CartInv cd0)
    (h : format2 t cd0 = some cd') : CartInv cd' := by
  simp only [format2] at h
  split at h
  · simp only [Option.pure_def, Option.bind_eq_bind, Option.some_bind,
      Option.bind_eq_some] at h
    obtain ⟨q, hq, h⟩ := h
    have hq0 : 0 ≤ q := parseFloatChars_nonneg _
      (reSearch_first_cls reTotalPrice rfl (by assumption)) q hq
    obtain ⟨⟨a, ha, ha0⟩, htp, hit⟩ := hinv
    split at h
    · refine format2Parts_inv _ _ _ ?_ h
      split
      · exact ⟨⟨_, rfl, Nat.cast_nonneg _⟩, hq0, hit⟩
      · exact ⟨⟨a, ha, ha0⟩, hq0, hit⟩
    · rw [Option.some.injEq] at h
      subst h
      split
      · exact ⟨⟨_, rfl, Nat.cast_nonneg _⟩, hq0, hit⟩
      · exact ⟨⟨a, ha, ha0⟩, hq0, hit⟩
  · simp only [Option.pure_def, Option.bind_eq_bind, Option.some_bind] at h
    obtain ⟨⟨a, ha, ha0⟩, htp, hit⟩ := hinv
    split at h
    · refine format2Parts_inv _ _ _ ?_ h
      split
      · exact ⟨⟨_, rfl, Nat.cast_nonneg _⟩, htp, hit⟩
      · exact ⟨⟨a, ha, ha0⟩, htp, hit⟩
    · rw [Option.some.injEq] at h
      subst h
      split
      · exact ⟨⟨_, rfl, Nat.cast_nonneg _⟩, htp, hit⟩
      · exact ⟨⟨a, ha, ha0⟩, htp, hit⟩

theorem format3_inv (t : List Char) (cd0 cd' : CartData) (hinv : CartInv cd0)
    (h : format3 t cd0 = some cd') : CartInv cd' := by
  simp only [format3] at h
  split at h
  · simp only [Option.pure_def, Option.bind_eq_bind, Option.some_bind,
      Option.bind_eq_some] at h
    obtain ⟨q, hq, h⟩ := h
    have hq0 : 0 ≤ q := parseFloatChars_nonneg _
      (reSearch_first_cls reTotal rfl (by assumption)) q hq
    obtain ⟨⟨a, ha, ha0⟩, htp, hit⟩ := hinv
    split at h
    · refine format3Parts_inv _ _ _ ?_ h
      exact ⟨⟨a, ha, ha0⟩, hq0, hit⟩
    · rw [Option.some.injEq] at h
      subst h
      exact ⟨⟨a, ha, ha0⟩, hq0, hit⟩
  · simp only [Option.pure_def, Option.bind_eq_bind, Option.some_bind] at h
    split at h
    · exact format3Parts_inv _ _ _ hinv h
    · rw [Option.some.injEq] at h
      subst h
      exact hinv

theorem format4_inv (t : List Char) (cd0 cd' : CartData) (hinv : CartInv cd0)
    (h : format4 t cd0 = some cd') : CartInv cd' := by
  simp only [format4] at h
  obtain ⟨⟨a, ha, ha0⟩, htp, hit⟩ := hinv
  split at h
  · split at h
    · simp only [Option.pure_def, Option.bind_eq_bind, Option.bind_eq_some,
        Option.some.injEq] at h
      obtain ⟨price, hp, h⟩ := h
      have hpn : 0 ≤ price := parseFloatChars_nonneg _
        (reSearch_second_cls reCartSingle rfl (by assumption)) price hp
      subst h
      refine ⟨⟨_, rfl, Nat.cast_nonneg _⟩, add_nonneg htp hpn, ?_⟩
      intro it hit2
      rcases List.mem_append.mp hit2 with hmem | hmem
      · exact hit it hmem
      · rw [List.mem_singleton] at hmem
        subst hmem
        exact hpn
    · rw [Option.pure_def, Option.some.injEq] at h
      subst h
      exact ⟨⟨_, rfl, Nat.cast_nonneg _⟩, htp, hit⟩
  · rw [Option.pure_def, Option.some.injEq] at h
    subst h
    exact ⟨⟨a, ha, ha0⟩, htp, hit⟩

theorem format5_inv (t : List Char) (cd0 cd' : CartData) (hinv : CartInv cd0)
    (h : format5 t cd0 = some cd') : CartInv cd' :=
  format5Lines_inv _ _ _ hinv h

theorem formats1to5_inv (t : List Char) (cd0 cd' : CartData) (hinv : CartInv cd0)
    (h : formats1to5 t cd0 = some cd') : CartInv cd' := by
  simp only [formats1to5] at h
  split at h
  · exact format1_inv t cd0 cd' hinv h
  · split at h
    · exact format2_inv t cd0 cd' hinv h
    · split at h
      · exact format3_inv t cd0 cd' hinv h
      · split at h
        · exact format4_inv t cd0 cd' hinv h
        · exact format5_inv t cd0 cd' hinv h

theorem format0_guard_false (t : List Char) (cd : CartData)
    (h : jsonArrayGuard t = false) : format0 t cd = some cd := by
  have h2 : (startsWithL (sl "[") (pyStrip t) &&
      startsWithL (sl "]") (pyStrip t).reverse) = false := h
  simp only [format0, h2, Bool.false_eq_true, if_false]

theorem initCartData_inv : CartInv initCartData :=
  ⟨⟨0, rfl, le_refl 0⟩, le_refl 0, by intro it hit; cases hit⟩

/-- C6 (amended): the invariant total_items >= 0, total_price >= 0 and
price >= 0 for every line item does hold for every snapshot that transcript
reconciliation builds purely from the text formats 1-5, i.e. whenever the
captured cart text does not pass the JSON-array guard of Format 0: all these
formats obtain prices exclusively from regex groups over the character class
[\d.], whose float() value is never negative, and all item counters are digit
strings or increments of nonnegative numbers. (The universal claim over every
input fails because Format 0 and the tool-call tier pass arbitrary JSON numbers
and strings through float(), which accepts negative values; see the
counterexample.) -/
theorem C6_amended (t : List Char) (cd : CartData)
    (hguard : jsonArrayGuard t = false)
    (h : parseCartText t = some (Sum.inl cd)) : CartInv cd := by
  simp only [parseCartText, Option.bind_eq_bind, Option.bind_eq_some] at h
  obtain ⟨cd0, h0, cd1, h1, hres⟩ := h
  rw [format0_guard_false t initCartData hguard, Option.some.injEq] at h0
  subst h0
  have hinv := formats1to5_inv t initCartData cd1 initCartData_inv h1
  split at hres
  · simp only [Option.pure_def, Option.some.injEq] at hres
    cases hres
  · simp only [Option.pure_def, Option.some.injEq, Sum.inl.injEq] at hres
    subst hres
    exact hinv

/-- C6 amended witness. -/
theorem C6_amended_witness : CartInv c6wresult :=
  C6_amended c6wtext c6wresult (by with_unfolding_all rfl) (by with_unfolding_all rfl)
